import Mathlib

/-!
Verification of the paper-assistant PDF-parsing and NLP pipeline.

This file gives a shallow embedding, in Lean 4, of the relevant parts of
the repository:

  * backend/app/core/pdf_parser/layout_analyzer.py
    (analyze_layout, classify_section, detect_language,
     find_heading_font_size, merge of adjacent blocks, text fallback,
     abstract extraction, final no-empty guard)
  * backend/app/core/pdf_parser/reference_parser.py
    (parse_references, the single-reference field extraction)
  * backend/app/core/nlp/relation_extractor.py
    (extract_relationships, the lexical pattern table, co-occurrence)
  * backend/app/core/nlp/entity_recognizer.py
    (extract_entities dedup/guard logic; the Python re.finditer match
     streams of the keyword patterns are modelled as explicit inputs)
  * backend/app/core/pdf_parser/pymupdf_parser.py
    (extract_tables_from_pdf page/header/row logic; the PyMuPDF
     table-detection results are modelled as explicit inputs)

Python floats are modelled as rationals, Python ints as Int/Nat, and the
Python regular expressions used by the code are either compiled to a small
executable regex interpreter defined below or, for the reference parser,
implemented as direct character scanners mirroring the exact pattern.
-/

namespace PaperAssistant

/-! ### Python-style character and string helpers -/

/-- Python white space for the ASCII range: the characters matched by
str.strip() and by the regex class for white space. -/
def isPySpace (c : Char) : Bool :=
  c = ' ' || c = '\t' || c = '\n' || c = '\r' || c = '\x0b' || c = '\x0c'

/-- ASCII lower-casing of one character, as Python str.lower acts on the
ASCII range (the inputs we model are ASCII plus CJK, which lower-cases to
itself). -/
def lowerChar (c : Char) : Char :=
  if 65 ≤ c.toNat ∧ c.toNat ≤ 90 then Char.ofNat (c.toNat + 32) else c

/-- Python str.lower on a character list. -/
def lowerL (cs : List Char) : List Char := cs.map lowerChar

/-- Python str.strip() on a character list: drop white space from both ends. -/
def pyStripL (cs : List Char) : List Char :=
  ((cs.dropWhile isPySpace).reverse.dropWhile isPySpace).reverse

/-- Python str.strip() on strings. -/
def pyStrip (s : String) : String := ⟨pyStripL s.data⟩

/-- Python str.lower on strings (ASCII range). -/
def strToLower (s : String) : String := ⟨lowerL s.data⟩

/-- Python str.isdigit for the ASCII range: non-empty and all digits. -/
def isDigitStr (cs : List Char) : Bool :=
  !cs.isEmpty && cs.all Char.isDigit

/-- Value of a digit string (the int() call of the reference parser). -/
def digitsToNat (cs : List Char) : Nat :=
  cs.foldl (fun a c => a * 10 + (c.toNat - 48)) 0

/-- A CJK code point, the class used by detect_language. -/
def isCJK (c : Char) : Bool := 0x4e00 ≤ c.toNat && c.toNat ≤ 0x9fff

/-- A Python regex word character, ASCII range (used for boundary tests). -/
def isWordChar (c : Char) : Bool := c.isAlphanum || c = '_'

/-- Python str.rstrip(chars) on a character list. -/
def rstripSet (bad : Char → Bool) (cs : List Char) : List Char :=
  (cs.reverse.dropWhile bad).reverse

/-- Python str.split("\n") helper walking the character list. -/
def splitLinesGo : List Char → List Char → List String
  | piece, [] => [⟨piece.reverse⟩]
  | piece, '\n' :: rest => (⟨piece.reverse⟩ : String) :: splitLinesGo [] rest
  | piece, c :: rest => splitLinesGo (c :: piece) rest

/-- Python str.split("\n"): split at every newline, keeping empty
pieces. -/
def splitLines (s : String) : List String := splitLinesGo [] s.data

theorem pyStripL_length_le (cs : List Char) : (pyStripL cs).length ≤ cs.length := by
  unfold pyStripL
  calc ((cs.dropWhile isPySpace).reverse.dropWhile isPySpace).reverse.length
      = ((cs.dropWhile isPySpace).reverse.dropWhile isPySpace).length := by
        rw [List.length_reverse]
    _ ≤ (cs.dropWhile isPySpace).reverse.length :=
        (List.dropWhile_suffix _).length_le
    _ = (cs.dropWhile isPySpace).length := by rw [List.length_reverse]
    _ ≤ cs.length := (List.dropWhile_suffix _).length_le

theorem toNat_ofNat_small {n : Nat} (h : n < 55296) : (Char.ofNat n).toNat = n := by
  have hv : n.isValidChar := Or.inl h
  unfold Char.ofNat
  rw [dif_pos hv]
  rfl

theorem isPySpace_lowerChar (c : Char) : isPySpace (lowerChar c) = isPySpace c := by
  unfold lowerChar
  split
  · next h =>
    have h1 : (Char.ofNat (c.toNat + 32)).toNat = c.toNat + 32 :=
      toNat_ofNat_small (by omega)
    have hne : ∀ m : Nat, m < 55296 → m ≠ c.toNat + 32 →
        Char.ofNat (c.toNat + 32) ≠ Char.ofNat m := by
      intro m hlt hm heq
      have := congrArg Char.toNat heq
      rw [h1, toNat_ofNat_small hlt] at this
      omega
    have hc : ∀ m : Nat, m ≠ c.toNat ∧ m < 55296 → c ≠ Char.ofNat m := by
      intro m hm heq
      have := congrArg Char.toNat heq
      rw [toNat_ofNat_small hm.2] at this
      exact hm.1 (by omega)
    unfold isPySpace
    have e32 : (' ' : Char) = Char.ofNat 32 := rfl
    have e9 : ('\t' : Char) = Char.ofNat 9 := rfl
    have e10 : ('\n' : Char) = Char.ofNat 10 := rfl
    have e13 : ('\r' : Char) = Char.ofNat 13 := rfl
    have e11 : ('\x0b' : Char) = Char.ofNat 11 := rfl
    have e12 : ('\x0c' : Char) = Char.ofNat 12 := rfl
    rw [e32, e9, e10, e13, e11, e12]
    have l32 := hne 32 (by omega) (by omega)
    have l9 := hne 9 (by omega) (by omega)
    have l10 := hne 10 (by omega) (by omega)
    have l13 := hne 13 (by omega) (by omega)
    have l11 := hne 11 (by omega) (by omega)
    have l12 := hne 12 (by omega) (by omega)
    have r32 := hc 32 ⟨by omega, by omega⟩
    have r9 := hc 9 ⟨by omega, by omega⟩
    have r10 := hc 10 ⟨by omega, by omega⟩
    have r13 := hc 13 ⟨by omega, by omega⟩
    have r11 := hc 11 ⟨by omega, by omega⟩
    have r12 := hc 12 ⟨by omega, by omega⟩
    simp [l32, l9, l10, l13, l11, l12, r32, r9, r10, r13, r11, r12]
  · rfl

theorem pyStripL_lowerL (cs : List Char) : pyStripL (lowerL cs) = lowerL (pyStripL cs) := by
  have hfun : isPySpace ∘ lowerChar = isPySpace := by
    funext c; exact isPySpace_lowerChar c
  unfold pyStripL lowerL
  rw [List.dropWhile_map, hfun, ← List.map_reverse, List.dropWhile_map, hfun,
    ← List.map_reverse]

/-! ### A small executable regex interpreter

The interpreter decides existence of a match (the boolean question asked
by re.match and re.search in classify_section, _is_numbered_heading and
the relation extractor).  Alternation tries the left branch first; since
we only ask for existence, greedy versus lazy is irrelevant here.  The
constructor for one-or-more repetition is fuelled; every repetition body
we use consumes at least one character, so fuel = length of the input + 2
is always sufficient. -/

inductive RE where
  | eps : RE
  | cls : (Char → Bool) → RE
  | seq : RE → RE → RE
  | alt : RE → RE → RE
  | rep1 : RE → RE
  | look : RE → RE
  | eos : RE

/-- Match a regex against a character list in continuation style; returns
true when some way of matching lets the continuation succeed.  The fuel
decreases on every step, making the recursion structural; one unit is
spent per syntax-tree step and per repetition round, so any fuel beyond
the pattern size plus, for each repetition round, the pattern size again
(rounds consume at least one character for the repetition bodies used
here) is enough; reMatchHere supplies a generous product bound. -/
def reM : Nat → RE → List Char → (List Char → Bool) → Bool
  | 0, _, _, _ => false
  | _ + 1, RE.eps, s, k => k s
  | _ + 1, RE.cls _, [], _ => false
  | _ + 1, RE.cls p, c :: s, k => p c && k s
  | f + 1, RE.seq a b, s, k => reM f a s (fun s2 => reM f b s2 k)
  | f + 1, RE.alt a b, s, k => reM f a s k || reM f b s k
  | f + 1, RE.rep1 a, s, k => reM f a s (fun s2 => k s2 || reM f (RE.rep1 a) s2 k)
  | f + 1, RE.look a, s, k => reM f a s (fun _ => true) && k s
  | _ + 1, RE.eos, s, k => s.isEmpty && k s

/-- Syntax-tree size of a regex, for the fuel bound. -/
def reSize : RE → Nat
  | RE.eps => 1
  | RE.cls _ => 1
  | RE.seq a b => reSize a + reSize b + 1
  | RE.alt a b => reSize a + reSize b + 1
  | RE.rep1 a => reSize a + 1
  | RE.look a => reSize a + 1
  | RE.eos => 1

/-- Anchored match at the start of the input (Python re.match). -/
def reMatchHere (r : RE) (cs : List Char) : Bool :=
  reM ((reSize r + 2) * (cs.length + 2)) r cs (fun _ => true)

/-- Unanchored search (Python re.search): try every start position. -/
def reSearch (r : RE) (cs : List Char) : Bool :=
  (List.range (cs.length + 1)).any (fun i => reMatchHere r (cs.drop i))

/-- Literal string as a regex (case sensitive). -/
def reStr (s : String) : RE :=
  s.data.foldr (fun c r => RE.seq (RE.cls (fun x => x = c)) r) RE.eps

/-- Literal string matched case-insensitively (ASCII). -/
def reStrCI (s : String) : RE :=
  s.data.foldr (fun c r => RE.seq (RE.cls (fun x => lowerChar x = c)) r) RE.eps

/-- Zero-or-one. -/
def reOpt (r : RE) : RE := RE.alt r RE.eps

/-- Zero-or-more. -/
def reStar (r : RE) : RE := RE.alt (RE.rep1 r) RE.eps

/-- Sequencing of a list of regexes. -/
def reSeqs (rs : List RE) : RE := rs.foldr RE.seq RE.eps

/-- Alternation over a non-empty list, left to right. -/
def reAlts (rs : List RE) : RE :=
  match rs with
  | [] => RE.cls (fun _ => false)
  | [r] => r
  | r :: rest => RE.alt r (reAlts rest)

/-- One white-space character. -/
def wsC : RE := RE.cls isPySpace

/-- One-or-more white space. -/
def ws1 : RE := RE.rep1 wsC

/-- Zero-or-more white space. -/
def wsS : RE := reStar wsC

/-! ### Data model of pymupdf_parser.py

TextBlock, ParsedPage and ParsedDocument mirror the dataclasses of
pymupdf_parser.py; font sizes and coordinates are rationals, page numbers
are integers (parse_pdf assigns 0-based page numbers). -/

structure TextBlock where
  text : String
  font_size : ℚ
  font_name : String
  is_bold : Bool
  page_num : ℤ
  bbox : ℚ × ℚ × ℚ × ℚ
  deriving DecidableEq, Repr

structure ParsedPage where
  page_num : ℤ
  width : ℚ
  height : ℚ
  blocks : List TextBlock
  raw_text : String
  deriving DecidableEq, Repr

structure ParsedDocument where
  pages : List ParsedPage
  page_count : ℤ
  deriving DecidableEq, Repr

/-- A section dictionary as produced by analyze_layout (the transient
_collecting flag is modelled by keeping the open section separate). -/
structure Sec where
  section_type : String
  heading : String
  content : String
  page_start : ℤ
  page_end : ℤ
  deriving DecidableEq, Repr

/-! ### layout_analyzer.py: SECTION_PATTERNS and classify_section -/

/-- The optional leading numbering of most heading patterns. -/
def numPre : RE := reOpt (RE.seq (RE.rep1 (RE.cls (fun c => c.isDigit || c = '.'))) wsS)

/-- A full-line pattern with optional numbering. -/
def patNum (r : RE) : RE := reSeqs [numPre, r, wsS, RE.eos]

/-- A full-line pattern without the numbering prefix. -/
def patPlain (r : RE) : RE := reSeqs [r, wsS, RE.eos]

/-- SECTION_PATTERNS of layout_analyzer.py, in source (insertion) order;
each Python regex is compiled to the interpreter above.  classify_section
lower-cases its input first, so the case-insensitive flag is immaterial
and literals are matched exactly. -/
def sectionPatternList : List (String × List RE) :=
  [ ("abstract",
      [ patPlain (reStr "abstract"),
        patPlain (reSeqs [reStr "摘", wsS, reStr "要"]),
        patPlain (reStr "summary") ]),
    ("introduction",
      [ patNum (reStr "introduction"),
        patNum (reSeqs [reStr "引", wsS, reStr "言"]),
        patNum (reSeqs [reStr "绪", wsS, reStr "论"]),
        patNum (reStr "overview") ]),
    ("related_work",
      [ patNum (reSeqs [reStr "related", ws1, reStr "work", reOpt (reStr "s")]),
        patNum (reStr "background"),
        patNum (reSeqs [reStr "background", ws1, reStr "and", ws1, reStr "related",
          ws1, reStr "work"]),
        patNum (reSeqs [reStr "literature", ws1, reStr "review"]),
        patNum (reSeqs [reStr "previous", ws1, reStr "work"]),
        patNum (reSeqs [reStr "prior", ws1, reStr "work"]),
        patNum (reStr "相关工作"),
        patNum (reStr "研究背景") ]),
    ("methods",
      [ patNum (reSeqs [reStr "method", reOpt (RE.alt (reStr "s") (reStr "ology"))]),
        patNum (reStr "approach"),
        patNum (reSeqs [reOpt (RE.seq (reStr "proposed") ws1),
          reAlts [reStr "method", reStr "framework", reStr "model", reStr "system",
            reStr "architecture"]]),
        patNum (reSeqs [reOpt (RE.seq (reStr "our") ws1),
          reAlts [reStr "method", reStr "approach", reStr "framework", reStr "model"]]),
        patNum (reSeqs [reStr "technical", ws1, reStr "approach"]),
        patNum (reSeqs [reStr "problem", ws1,
          reAlts [reStr "formulation", reStr "definition", reStr "setup"]]),
        patNum (reStr "方法"),
        patNum (reStr "模型") ]),
    ("experiments",
      [ patNum (reSeqs [reStr "experiment", reOpt (reStr "s")]),
        patNum (reSeqs [reStr "experimental", ws1,
          reAlts [reStr "setup", RE.seq (reStr "result") (reOpt (reStr "s")),
            RE.seq (reStr "setting") (reOpt (reStr "s")), reStr "evaluation"]]),
        patNum (reStr "evaluation"),
        patNum (reSeqs [reStr "empirical", ws1,
          reAlts [reStr "study", reStr "evaluation",
            RE.seq (reStr "result") (reOpt (reStr "s"))]]),
        patNum (reStr "实验"),
        patNum (reStr "实验设置") ]),
    ("results",
      [ patNum (reSeqs [reStr "result", reOpt (reStr "s")]),
        patNum (reSeqs [reStr "result", reOpt (reStr "s"), ws1, reStr "and", ws1,
          reAlts [reStr "discussion", reStr "analysis"]]),
        patNum (reSeqs [reStr "main", ws1, reStr "result", reOpt (reStr "s")]),
        patNum (reSeqs [reStr "finding", reOpt (reStr "s")]),
        patNum (reStr "结果"),
        patNum (reStr "实验结果") ]),
    ("discussion",
      [ patNum (reStr "discussion"),
        patNum (reStr "analysis"),
        patNum (reSeqs [reStr "discussion", ws1, reStr "and", ws1,
          reAlts [reStr "analysis", reSeqs [reStr "future", ws1, reStr "work"]]]),
        patNum (reSeqs [reStr "ablation", ws1, reStr "stud",
          RE.alt (reStr "y") (reStr "ies")]),
        patNum (reStr "讨论"),
        patNum (reStr "分析") ]),
    ("conclusion",
      [ patNum (reSeqs [reStr "conclusion", reOpt (reStr "s")]),
        patNum (reSeqs [RE.alt (reStr "conclusion") (reStr "summary"), ws1,
          reStr "and", ws1, reStr "future", ws1, reStr "work"]),
        patNum (reSeqs [reStr "concluding", ws1, reStr "remark", reOpt (reStr "s")]),
        patNum (reSeqs [reStr "future", ws1, reStr "work"]),
        patNum (reStr "结论"),
        patNum (reStr "总结") ]),
    ("acknowledgments",
      [ patPlain (reSeqs [reStr "acknowledg", reOpt (reStr "m"), reStr "ent",
          reOpt (reStr "s")]),
        patPlain (reSeqs [reStr "致", wsS, reStr "谢"]) ]),
    ("appendix",
      [ patNum (reSeqs [reStr "appendix", wsS,
          reOpt (RE.cls (fun c => 'a' ≤ c ∧ c ≤ 'z'))]),
        patNum (reSeqs [reStr "supplementary", ws1,
          RE.alt (reStr "material") (reStr "information")]),
        patPlain (reSeqs [reStr "附", wsS, reStr "录"]) ]),
    ("references",
      [ patPlain (reSeqs [reStr "reference", reOpt (reStr "s")]),
        patPlain (reStr "bibliography"),
        patPlain (reStr "参考文献") ]) ]

/-- re.sub(r"^[\d.]+\s*", "", clean): remove a leading run of digits and
dots followed by optional white space (the two character classes are
disjoint, so the greedy match is exactly the maximal runs). -/
def stripLeadNumDots (cs : List Char) : List Char :=
  let r1 := cs.takeWhile (fun c => c.isDigit || c = '.')
  if r1.isEmpty then cs
  else (cs.drop r1.length).dropWhile isPySpace

/-- re.sub(r"^[ivxlcdm]+[.\s]+", "", clean, IGNORECASE): remove leading
roman-numeral letters followed by at least one dot or space.  If no dot or
space follows the maximal letter run the pattern cannot match at all
(shrinking the letter run leaves a letter where the second class is
required), so the implementation is exact. -/
def stripLeadRoman (cs : List Char) : List Char :=
  let isRoman := fun c => (lowerChar c) = 'i' || (lowerChar c) = 'v' ||
    (lowerChar c) = 'x' || (lowerChar c) = 'l' || (lowerChar c) = 'c' ||
    (lowerChar c) = 'd' || (lowerChar c) = 'm'
  let r1 := cs.takeWhile isRoman
  if r1.isEmpty then cs
  else
    let rest := cs.drop r1.length
    let r2 := rest.takeWhile (fun c => c = '.' || isPySpace c)
    if r2.isEmpty then cs else rest.drop r2.length

/-- re.sub(r"^[a-z][.\s]+", "", clean, IGNORECASE): remove one leading
letter followed by at least one dot or space. -/
def stripLeadLetter (cs : List Char) : List Char :=
  match cs with
  | [] => []
  | c :: rest =>
    if ('a' ≤ lowerChar c ∧ lowerChar c ≤ 'z') then
      let r2 := rest.takeWhile (fun x => x = '.' || isPySpace x)
      if r2.isEmpty then cs else rest.drop r2.length
    else cs

/-- classify_section of layout_analyzer.py. -/
def classifySection (headingText : String) : String :=
  let clean0 := lowerL (pyStripL headingText.data)
  let c1 := stripLeadNumDots clean0
  let c2 := stripLeadRoman c1
  let c3 := stripLeadLetter c2
  let clean := pyStripL c3
  match sectionPatternList.find? (fun tp => tp.2.any (fun r => reMatchHere r clean)) with
  | some tp => tp.1
  | none => "other"

/-- Parse the numbered-heading head `\d+(\.\d+)*\.?\s+` at the start of a
character list, returning what remains after the matched prefix; the
pattern fails when no white space follows (an unconsumed dot cannot be
re-read as white space, so the greedy scan is exact). -/
def numHeadRest (cs : List Char) : Option (List Char) :=
  let d0 := cs.takeWhile Char.isDigit
  if d0.isEmpty then none
  else
    let rec eatGroups : Nat → List Char → List Char
      | 0, r => r
      | f + 1, '.' :: r =>
        let d := r.takeWhile Char.isDigit
        if d.isEmpty then '.' :: r
        else eatGroups f (r.drop d.length)
      | _ + 1, r => r
    let rest1 := eatGroups cs.length (cs.drop d0.length)
    let rest2 := match rest1 with
      | '.' :: r => if (r.takeWhile isPySpace).isEmpty then rest1 else r
      | r => r
    let w := rest2.takeWhile isPySpace
    if w.isEmpty then none else some (rest2.drop w.length)

/-- _is_numbered_heading of layout_analyzer.py: the text (stripped) starts
with an Arabic `1.2.` style or Roman `IV.` style number followed by white
space and a non-space character, and is shorter than 150 characters. -/
def isNumberedHeading (text : String) : Bool :=
  let cs := pyStripL text.data
  let arabic :=
    match numHeadRest cs with
    | some rest => !rest.isEmpty && cs.length < 150
    | none => false
  let isRomanU := fun c => c = 'I' || c = 'V' || c = 'X' || c = 'L' ||
    c = 'C' || c = 'D' || c = 'M'
  let roman :=
    let r1 := cs.takeWhile isRomanU
    if r1.isEmpty then false
    else
      match cs.drop r1.length with
      | '.' :: rest =>
        let w := rest.takeWhile isPySpace
        !w.isEmpty && !(rest.drop w.length).isEmpty && cs.length < 150
      | _ => false
  arabic || roman

/-! ### layout_analyzer.py: detect_language, find_heading_font_size,
_merge_adjacent_blocks and the main analyze_layout pipeline -/

/-- detect_language of layout_analyzer.py: count CJK code points, divide
by the length of the stripped text, Chinese above 0.3 (the float division
is modelled over the rationals). -/
def detectLanguage (text : String) : String :=
  let chineseChars : ℕ := (text.data.filter isCJK).length
  let totalChars : ℕ := (pyStripL text.data).length
  if totalChars = 0 then "en"
  else if (3 : ℚ) / 10 < (chineseChars : ℚ) / (totalChars : ℚ) then "zh"
  else "en"

/-- Round-half-to-even on rationals, modelling Python round(). -/
def roundHalfEven (x : ℚ) : ℤ :=
  let f := ⌊x⌋
  let r := x - (f : ℚ)
  if r < 1 / 2 then f
  else if (1 : ℚ) / 2 < r then f + 1
  else if Even f then f else f + 1

/-- round(font_size, 1). -/
def roundTo1 (q : ℚ) : ℚ := (roundHalfEven (q * 10) : ℚ) / 10

/-- Add to a counter kept as an insertion-ordered association list
(modelling collections.Counter updates). -/
def counterAdd : List (ℚ × ℕ) → ℚ → ℕ → List (ℚ × ℕ)
  | [], k, n => [(k, n)]
  | (k0, n0) :: rest, k, n =>
    if k0 = k then (k0, n0 + n) :: rest else (k0, n0) :: counterAdd rest k n

/-- find_heading_font_size of layout_analyzer.py.  Counter.most_common
breaks count ties by insertion order, which the left fold preserves. -/
def findHeadingFontSize (doc : ParsedDocument) : ℚ × ℚ :=
  let fontSizes := doc.pages.foldl (fun acc page =>
    page.blocks.foldl (fun acc2 b =>
      if 3 < (pyStripL b.text.data).length then
        counterAdd acc2 (roundTo1 b.font_size) b.text.length
      else acc2) acc) []
  match fontSizes with
  | [] => (12, 14)
  | x :: rest =>
    let bodySize := (rest.foldl (fun best y => if best.2 < y.2 then y else best) x).1
    let headingCandidates :=
      ((x :: rest).filter (fun p => bodySize < p.1 ∧ p.1 ≤ bodySize + 6)).map (·.1)
    let headingSize := match headingCandidates with
      | [] => bodySize + 3 / 2
      | h :: t => t.foldl min h
    (bodySize, headingSize)

/-- Merge condition of _merge_adjacent_blocks: same line, same font size,
same boldness, same page. -/
def sameLine (prev b : TextBlock) : Bool :=
  decide (|b.bbox.2.1 - prev.bbox.2.1| < 3) &&
  decide (|b.font_size - prev.font_size| < 1 / 2) &&
  (b.is_bold == prev.is_bold) && (b.page_num == prev.page_num)

/-- The merged block produced by _merge_adjacent_blocks. -/
def mergeTwo (prev b : TextBlock) : TextBlock :=
  { text := prev.text ++ " " ++ b.text
    font_size := prev.font_size
    font_name := prev.font_name
    is_bold := prev.is_bold
    page_num := prev.page_num
    bbox := (prev.bbox.1, prev.bbox.2.1, b.bbox.2.2.1, b.bbox.2.2.2) }

/-- Walk the block list, absorbing each block into the running last merged
block when the merge condition holds (the list-based loop of the source
always compares against the last element of the merged list). -/
def mergeGo (prev : TextBlock) : List TextBlock → List TextBlock
  | [] => [prev]
  | b :: bs => if sameLine prev b then mergeGo (mergeTwo prev b) bs
               else prev :: mergeGo b bs

/-- _merge_adjacent_blocks of layout_analyzer.py. -/
def mergeAdjacentBlocks (blocks : List TextBlock) : List TextBlock :=
  match blocks with
  | [] => []
  | b0 :: rest => mergeGo b0 rest

/-- Python str.isupper for the ASCII range: no cased character is lower
case and at least one is upper case. -/
def pyIsUpper (s : String) : Bool :=
  s.data.all (fun c => !c.isLower) && s.data.any (fun c => c.isUpper)

/-- Checks 1-4 of the heading detection in analyze_layout, in source
order; returns (is_heading, section_type). -/
def headingCheck (bodySize headingSize : ℚ) (b : TextBlock) (text : String) :
    Bool × String :=
  let st1 : Bool × String :=
    if headingSize ≤ b.font_size ∧ text.length < 200 then
      if b.is_bold ∨ bodySize + 1 / 2 < b.font_size then (true, classifySection text)
      else (false, "other")
    else (false, "other")
  let st2 :=
    if ¬ st1.1 ∧ isNumberedHeading text then
      let cand := classifySection text
      if cand ≠ "other" then (true, cand) else st1
    else st1
  let st3 :=
    if ¬ st2.1 ∧ b.is_bold ∧ text.length < 100 then
      let cand := classifySection text
      if cand ≠ "other" then (true, cand) else st2
    else st2
  let st4 :=
    if ¬ st3.1 ∧ pyIsUpper text ∧ text.length < 100 then
      let cand := classifySection text
      if cand ≠ "other" then (true, cand) else st3
    else st3
  st4

/-- One iteration of the block loop of analyze_layout.  The state is the
finished section list plus the currently collecting section (the Python
current_section with its _collecting flag). -/
def processBlock (bodySize headingSize : ℚ) (st : List Sec × Option Sec)
    (b : TextBlock) : List Sec × Option Sec :=
  let text := pyStrip b.text
  if text = "" then st
  else
    let sections := st.1
    let currentSection := st.2
    let hc := headingCheck bodySize headingSize b text
    if hc.1 ∧ hc.2 ≠ "other" then
      let flushed := match currentSection with
        | some c => if pyStrip c.content ≠ "" then sections ++ [c] else sections
        | none => sections
      (flushed, some ⟨hc.2, text, "", b.page_num, b.page_num⟩)
    else if hc.1 ∧ hc.2 = "other" ∧ headingSize < b.font_size then
      match currentSection with
      | some c => (sections,
          some { c with
                 content := c.content ++ "\n### " ++ text ++ "\n"
                 page_end := b.page_num })
      | none => (sections, some ⟨"other", text, "", b.page_num, b.page_num⟩)
    else
      match currentSection with
      | some c => (sections,
          some { c with
                 content := c.content ++ text ++ " "
                 page_end := b.page_num })
      | none => st

/-- The first pass of analyze_layout: the title from the largest font on
the first page. -/
def titlePass (doc : ParsedDocument) (bodySize headingSize : ℚ) : List Sec :=
  match doc.pages with
  | [] => []
  | firstPage :: _ =>
    let maxFont := match firstPage.blocks.map (·.font_size) with
      | [] => bodySize
      | x :: xs => xs.foldl max x
    if headingSize < maxFont then
      let titleBlocks := firstPage.blocks.filter (fun b => |b.font_size - maxFont| < 1)
      let titleText := String.intercalate " " ((titleBlocks.take 5).map (·.text))
      [⟨"title", pyStrip titleText, pyStrip titleText, 0, 0⟩]
    else []

/-- Append the still-open section when its content is non-blank (the save
step after the block loop and after the text fallback loop). -/
def flushCurrent (sections : List Sec) (cur : Option Sec) : List Sec :=
  match cur with
  | some c => if pyStrip c.content ≠ "" then sections ++ [c] else sections
  | none => sections

/-- One line of _extract_sections_from_text. -/
def estLine (st : List Sec × Option Sec) (line : String) : List Sec × Option Sec :=
  let stripped := pyStrip line
  if stripped = "" then
    match st.2 with
    | some c => (st.1, some { c with content := c.content ++ "\n" })
    | none => st
  else
    let t0 := classifySection stripped
    let sectionType :=
      if t0 = "other" then
        match numHeadRest stripped.data with
        | some rest => if !rest.isEmpty then classifySection ⟨rest⟩ else t0
        | none => t0
      else t0
    if sectionType ≠ "other" ∧ stripped.length < 100 then
      let flushed := match st.2 with
        | some c => if pyStrip c.content ≠ "" then st.1 ++ [c] else st.1
        | none => st.1
      (flushed, some ⟨sectionType, stripped, "", 0, 0⟩)
    else
      match st.2 with
      | some c => (st.1, some { c with content := c.content ++ stripped ++ " " })
      | none => st

/-- _extract_sections_from_text of layout_analyzer.py (its language
argument is never read in the body). -/
def extractSectionsFromText (fullText _language : String) : List Sec :=
  let lines := splitLines fullText
  let st := lines.foldl estLine ([], none)
  flushCurrent st.1 st.2

/-- The gap class of the abstract regex between the anchor word and the
captured text. -/
def isGapChar (c : Char) : Bool := c = ':' || isPySpace c || c = '—' || c = '-'

/-- The lookahead of the abstract-extraction regex: a newline, optional
white space and numbering, then introduction / keywords (or Chinese
equivalents) or a section number 1. -/
def abstractLookRE : RE :=
  reSeqs [RE.cls (fun c => c = '\n'), wsS,
    reOpt (RE.seq (RE.rep1 (RE.cls (fun c => c.isDigit || c = '.'))) wsS),
    reAlts [reStrCI "introduction", reStr "引言", reStrCI "keywords", reStr "关键词",
      RE.seq (RE.cls (fun c => c = '1')) wsC]]

/-- Does the lookahead succeed at offset q of the text. -/
def lookAt (cs : List Char) (q : Nat) : Bool :=
  reMatchHere abstractLookRE (cs.drop q)

/-- Length of the anchor of the abstract regex (abstract, case
insensitive, or the Chinese 摘要 with optional interior space) when it
matches at the front of the list. -/
def ciHeadLen (cs : List Char) : Option Nat :=
  if reMatchHere (reStrCI "abstract") cs then some 8
  else
    match cs with
    | c :: rest =>
      if c = '摘' then
        let w := rest.takeWhile isPySpace
        match rest.drop w.length with
        | c2 :: _ => if c2 = '要' then some (2 + w.length) else none
        | [] => none
      else none
    | [] => none

/-- The capture of the abstract regex when a match starts at offset i:
the greedy gap is consumed first, the lazy body then stops at the first
offset where the lookahead succeeds; if the only lookahead offsets fall
inside the greedy gap, backtracking shortens the gap, which leaves a
one-character body ending at the last such offset. -/
def captureAt (cs : List Char) (i : Nat) : Option (List Char) :=
  match ciHeadLen (cs.drop i) with
  | none => none
  | some h =>
    let base := i + h
    let g := ((cs.drop base).takeWhile isGapChar).length
    let qs := (List.range (cs.length + 1)).filter (fun q => base < q && lookAt cs q)
    match qs.filter (fun q => base + g < q) with
    | q :: _ => some ((cs.drop (base + g)).take (q - (base + g)))
    | [] =>
      match qs.getLast? with
      | some qM => some ((cs.drop (qM - 1)).take 1)
      | none => none

/-- re.search for the abstract regex: the captured group of the leftmost
match, if any. -/
def abstractCapture (text : String) : Option String :=
  let cs := text.data
  ((List.range (cs.length + 1)).foldl (fun acc i =>
    match acc with
    | some r => some r
    | none => captureAt cs i) none).map (fun l => ⟨l⟩)

/-- The inserted abstract section. -/
def abstractSec (content : String) : Sec := ⟨"abstract", "Abstract", content, 0, 0⟩

/-- The abstract-recovery step of analyze_layout. -/
def abstractInsert (sections : List Sec) (fullText : String) : List Sec :=
  if sections.any (fun s => s.section_type = "abstract") then sections
  else
    match abstractCapture fullText with
    | none => sections
    | some cap =>
      let abstractText := pyStrip cap
      if 50 < abstractText.length then
        let insertPos : Nat := match sections with
          | s0 :: _ => if s0.section_type = "title" then 1 else 0
          | [] => 0
        sections.take insertPos ++ [abstractSec abstractText] ++ sections.drop insertPos
      else sections

/-- The text-based fallback of analyze_layout when fewer than two named
sections were detected from fonts. -/
def textFallback (sections : List Sec) (fullText language : String) : List Sec :=
  let namedSections := sections.filter
    (fun s => s.section_type ≠ "title" ∧ s.section_type ≠ "other")
  if namedSections.length < 2 then
    let textSections := extractSectionsFromText fullText language
    if namedSections.length < textSections.length then
      sections.filter (fun s => s.section_type = "title") ++ textSections
    else sections
  else sections

/-- The single full-text fallback section. -/
def fullTextSec (fullText : String) (pageCount : ℤ) : Sec :=
  ⟨"other", "Full Text", fullText, 0, pageCount - 1⟩

/-- The final no-empty guard of analyze_layout: when at most one section
survives, a single full-text section is appended. -/
def finalizeSections (fullText : String) (pageCount : ℤ) (sections : List Sec) :
    List Sec :=
  if sections.length ≤ 1 then sections ++ [fullTextSec fullText pageCount]
  else sections

/-- analyze_layout of layout_analyzer.py. -/
def analyzeLayout (doc : ParsedDocument) : List Sec × String :=
  if doc.pages.isEmpty then ([], "en")
  else
    let bh := findHeadingFontSize doc
    let fullText := String.intercalate "\n" (doc.pages.map (·.raw_text))
    let language := detectLanguage fullText
    let sections0 := titlePass doc bh.1 bh.2
    let allBlocks := doc.pages.foldl (fun acc p => acc ++ mergeAdjacentBlocks p.blocks) []
    let st := allBlocks.foldl (processBlock bh.1 bh.2) (sections0, none)
    let sections1 := flushCurrent st.1 st.2
    let sections2 := textFallback sections1 fullText language
    let sections3 := abstractInsert sections2 fullText
    (finalizeSections fullText doc.page_count sections3, language)

/-! ### reference_parser.py -/

/-- A parsed reference; venue is declared in the source dict but never
assigned, so it stays None. -/
structure Ref where
  raw_text : String
  title : Option String
  authors : List String
  year : Option ℕ
  venue : Option String
  doi : Option String
  order : ℕ
  deriving DecidableEq, Repr

/-- A match of the splitter regex of parse_references starting at the
head of the list: a newline, optional white space, then either a
bracketed number or a number followed by a dot and one white-space
character.  Returns the digit group and the total matched length.
Backtracking cannot rescue a failed attempt: shrinking the white-space
run leaves a white-space character where a bracket or digit is required,
and digits followed by anything but the closing bracket or dot cannot be
re-split, the classes being disjoint. -/
def refMarkerAt (cs : List Char) : Option (List Char × Nat) :=
  match cs with
  | '\n' :: rest =>
    let w := rest.takeWhile isPySpace
    let after := rest.drop w.length
    match after with
    | '[' :: r2 =>
      let d := r2.takeWhile Char.isDigit
      if d.isEmpty then none
      else match r2.drop d.length with
        | ']' :: _ => some (d, 1 + w.length + 1 + d.length + 1)
        | _ => none
    | _ =>
      let d := after.takeWhile Char.isDigit
      if d.isEmpty then none
      else match after.drop d.length with
        | '.' :: c2 :: _ =>
          if isPySpace c2 then some (d, 1 + w.length + d.length + 2) else none
        | _ => none
  | _ => none

/-- Scanner for re.split over the splitter regex: emits the text pieces
and the digit groups in order (the group of the branch that did not
participate is None in Python and is skipped by the consuming loop, so
it is not emitted here). -/
def refSplitGo : Nat → List Char → List Char → List String → List String
  | _, [], piece, acc => acc ++ [⟨piece.reverse⟩]
  | 0, rest, piece, acc => acc ++ [⟨piece.reverse ++ rest⟩]
  | f + 1, c :: rest, piece, acc =>
    match refMarkerAt (c :: rest) with
    | some (d, len) =>
      refSplitGo f ((c :: rest).drop len) [] (acc ++ [⟨piece.reverse⟩, ⟨d⟩])
    | none => refSplitGo f rest (c :: piece) acc

/-- The block list that the reconstruction loop of parse_references
iterates over. -/
def refBlocks (text : String) : List String :=
  refSplitGo (text.data.length + 1) text.data [] []

/-- The year regex match at the head of the list, with its word-boundary
conditions; prev is the character before the current position. -/
def yearHere (prev : Option Char) (cs : List Char) : Option ℕ :=
  match cs with
  | c0 :: c1 :: c2 :: c3 :: rest =>
    let okPrev : Bool := match prev with | some b => !isWordChar b | none => true
    let okNext : Bool := match rest with | r :: _ => !isWordChar r | [] => true
    if (((c0 = '1' ∧ c1 = '9') ∨ (c0 = '2' ∧ c1 = '0')) ∧ c2.isDigit ∧ c3.isDigit)
        ∧ okPrev ∧ okNext then
      some (digitsToNat [c0, c1, c2, c3])
    else none
  | _ => none

/-- re.search for the year pattern: leftmost match, returning the year
and its start index. -/
def yearScan (prev : Option Char) : List Char → Nat → Option (ℕ × Nat)
  | cs, i =>
    match yearHere prev cs with
    | some y => some (y, i)
    | none =>
      match cs with
      | [] => none
      | c :: rest => yearScan (some c) rest (i + 1)

/-- The DOI regex matched at the head of the list: 10. then at least four
digits, a slash, and a maximal non-space run. -/
def doiHere (cs : List Char) : Option (List Char) :=
  match cs with
  | '1' :: '0' :: '.' :: rest =>
    let d := rest.takeWhile Char.isDigit
    if 4 ≤ d.length then
      match rest.drop d.length with
      | '/' :: r2 =>
        let tail := r2.takeWhile (fun c => !isPySpace c)
        if tail.isEmpty then none
        else some ('1' :: '0' :: '.' :: (d ++ '/' :: tail))
      | _ => none
    else none
  | _ => none

/-- re.search for the DOI pattern: leftmost match. -/
def doiScan : List Char → Option (List Char)
  | [] => none
  | c :: rest =>
    match doiHere (c :: rest) with
    | some r => some r
    | none => doiScan rest

/-- A straight or curly double quote, the class of the title pattern. -/
def quoteChar (c : Char) : Bool := c = '"' || c = '“' || c = '”'

/-- Scan for the closing quote of the lazy quoted-title body; the body may
not contain a newline and must have at least one character. -/
def titleCloseScan : List Char → List Char → Option (List Char)
  | _, [] => none
  | body, c :: rest =>
    if quoteChar c then some body.reverse
    else if c = '\n' then none
    else titleCloseScan (c :: body) rest

/-- The quoted-title match starting at the head of the list. -/
def titleHere (cs : List Char) : Option (List Char) :=
  match cs with
  | c :: c1 :: rest =>
    if quoteChar c then
      if c1 = '\n' then none else titleCloseScan [c1] rest
    else none
  | _ => none

/-- re.search for the quoted-title pattern: leftmost opening quote with a
closing quote on the same line. -/
def titleQuoteScan : List Char → Option (List Char)
  | [] => none
  | c :: rest =>
    match titleHere (c :: rest) with
    | some t => some t
    | none => titleQuoteScan rest

/-- re.split over a dot followed by white space with maxsplit, used for
the Authors. Title. Venue, Year. heuristic. -/
def dotSplitGo : Nat → Nat → List Char → List Char → List String → List String
  | _, _, [], piece, acc => acc ++ [⟨piece.reverse⟩]
  | 0, _, rest, piece, acc => acc ++ [⟨piece.reverse ++ rest⟩]
  | f + 1, ms, '.' :: rest, piece, acc =>
    if ms = 0 then dotSplitGo f 0 rest ('.' :: piece) acc
    else
      let w := rest.takeWhile isPySpace
      if w.isEmpty then dotSplitGo f ms rest ('.' :: piece) acc
      else dotSplitGo f (ms - 1) (rest.drop w.length) [] (acc ++ [⟨piece.reverse⟩])
  | f + 1, ms, c :: rest, piece, acc => dotSplitGo f ms rest (c :: piece) acc

/-- re.split(r"\.\s+", text, maxsplit=3). -/
def dotSplit3 (s : String) : List String :=
  dotSplitGo (s.data.length + 1) 3 s.data [] []

/-- A separator of the author-splitting regex matched at the head of the
list, trying the three alternatives in source order; returns its length. -/
def authorSepAt (cs : List Char) : Option Nat :=
  let alt1 :=
    let w := cs.takeWhile isPySpace
    if w.isEmpty then none
    else match cs.drop w.length with
      | 'a' :: 'n' :: 'd' :: r2 =>
        let w2 := r2.takeWhile isPySpace
        if w2.isEmpty then none else some (w.length + 3 + w2.length)
      | _ => none
  match alt1 with
  | some n => some n
  | none =>
    match cs with
    | ',' :: rest => some (1 + (rest.takeWhile isPySpace).length)
    | _ =>
      let w := cs.takeWhile isPySpace
      match cs.drop w.length with
      | '&' :: r2 => some (w.length + 1 + (r2.takeWhile isPySpace).length)
      | _ => none

/-- Scanner for re.split over the author separators. -/
def authorSplitGo : Nat → List Char → List Char → List String → List String
  | _, [], piece, acc => acc ++ [⟨piece.reverse⟩]
  | 0, rest, piece, acc => acc ++ [⟨piece.reverse ++ rest⟩]
  | f + 1, c :: rest, piece, acc =>
    match authorSepAt (c :: rest) with
    | some n => authorSplitGo f ((c :: rest).drop n) [] (acc ++ [⟨piece.reverse⟩])
    | none => authorSplitGo f rest (c :: piece) acc

/-- re.split(r"\s+and\s+|,\s*|\s*&\s*", author_text). -/
def authorSplit (s : String) : List String :=
  authorSplitGo (s.data.length + 1) s.data [] []

/-- _parse_single_reference of reference_parser.py. -/
def parseSingleReference (text : String) (order : ℕ) : Ref :=
  let cs := text.data
  let yearRes := yearScan none cs 0
  let year := yearRes.map (·.1)
  let doi := (doiScan cs).map (fun l => (⟨rstripSet (fun c => c = '.') l⟩ : String))
  let title : Option String :=
    match titleQuoteScan cs with
    | some t => some ⟨t⟩
    | none =>
      let parts := dotSplit3 text
      match parts.get? 1 with
      | some p1 => if 10 < p1.length then some (pyStrip p1) else none
      | none => none
  let authorText : String :=
    match yearRes with
    | some yi =>
      ⟨rstripSet (fun c => c = ',' || c = '.' || c = '(') (pyStripL (cs.take yi.2))⟩
    | none => ⟨cs.take 50⟩
  let authors :=
    if authorText = "" then []
    else ((authorSplit authorText).filterMap (fun a =>
      let a2 := pyStrip a
      if a2 ≠ "" ∧ 1 < a2.length then some a2 else none)).take 10
  { raw_text := text, title := title, authors := authors, year := year,
    venue := none, doi := doi, order := order }

/-- parse_references of reference_parser.py. -/
def parseReferences (text : String) : List Ref :=
  let blocks := refBlocks text
  let step := fun (st : String × ℕ × List Ref) (b : String) =>
    if isDigitStr (pyStripL b.data) then
      let refs :=
        if pyStrip st.1 ≠ "" then
          st.2.2 ++ [parseSingleReference (pyStrip st.1) st.2.1]
        else st.2.2
      ("", digitsToNat (pyStripL b.data), refs)
    else (st.1 ++ b, st.2.1, st.2.2)
  let fin := blocks.foldl step ("", 0, [])
  let references :=
    if pyStrip fin.1 ≠ "" then
      fin.2.2 ++ [parseSingleReference (pyStrip fin.1) fin.2.1]
    else fin.2.2
  if references.isEmpty then
    (splitLines (pyStrip text)).enum.filterMap (fun il =>
      let l := pyStrip il.2
      if 20 < l.length then some (parseSingleReference l (il.1 + 1)) else none)
  else references

/-! ### relation_extractor.py -/

/-- An entity dictionary as consumed and produced by the NLP layer. -/
structure Entity where
  text : String
  entity_type : String
  confidence : ℚ
  deriving DecidableEq, Repr

/-- A relationship dictionary as produced by extract_relationships. -/
structure Rel where
  source : String
  target : String
  relation_type : String
  description : String
  confidence : ℚ
  deriving DecidableEq, Repr

/-- A literal character-list regex (the re.escape-d entity text). -/
def litL (cs : List Char) : RE :=
  cs.foldr (fun c r => RE.seq (RE.cls (fun x => x = c)) r) RE.eps

/-- One-or-more word characters. -/
def word1 : RE := RE.rep1 (RE.cls isWordChar)

/-- RELATION_INDICATORS of relation_extractor.py, each Python regex
template compiled to a function of the two escaped entity texts; list
order is the source insertion order. -/
def relationIndicators : List (String × List (List Char → List Char → RE)) :=
  [ ("uses",
      [ fun src tgt => reSeqs [litL src, ws1,
          reAlts [RE.seq (reStr "use") (reOpt (reStr "s")),
            RE.seq (reStr "utilize") (reOpt (reStr "s")),
            RE.seq (reStr "employ") (reOpt (reStr "s")),
            RE.seq (reStr "leverage") (reOpt (reStr "s")),
            reStr "applies"], ws1, litL tgt],
        fun src tgt => reSeqs [litL tgt, ws1, reOpt (RE.seq (reStr "is") ws1),
          reAlts [reStr "used", reStr "utilized", reStr "employed", reStr "applied"],
          ws1, reAlts [reStr "by", reStr "in", reStr "for"], ws1, litL src],
        fun _ tgt => reSeqs [reAlts [reStr "using", reStr "with", reStr "via",
          reStr "through"], ws1, litL tgt] ]),
    ("evaluates_on",
      [ fun src tgt => reSeqs [litL src, ws1,
          reAlts [reStr "on",
            reSeqs [reStr "evaluate", reOpt (reStr "d"), ws1, reStr "on"],
            reSeqs [reStr "teste", reOpt (reStr "d"), ws1, reStr "on"],
            reSeqs [reStr "benchmarke", reOpt (reStr "d"), ws1, reStr "on"]],
          ws1, litL tgt],
        fun src tgt => reSeqs [reAlts [reStr "evaluate", reStr "test",
          reStr "benchmark"], ws1, litL src, ws1, reStr "on", ws1, litL tgt],
        fun _ tgt => reSeqs [reAlts [
          reSeqs [reStr "result", reOpt (reStr "s"), ws1, reStr "on"],
          reSeqs [reStr "performance", ws1, reStr "on"]], ws1, litL tgt] ]),
    ("improves",
      [ fun src tgt => reSeqs [litL src, ws1,
          reAlts [RE.seq (reStr "improve") (reOpt (reStr "s")),
            RE.seq (reStr "outperform") (reOpt (reStr "s")),
            RE.seq (reStr "surpass") (reOpt (reStr "es")),
            RE.seq (reStr "exceed") (reOpt (reStr "s")),
            RE.seq (reStr "beat") (reOpt (reStr "s"))], ws1, litL tgt],
        fun src tgt => reSeqs [litL src, ws1,
          reSeqs [reStr "achieve", reOpt (reStr "s"), ws1,
            reAlts [reStr "better", reStr "higher", reStr "superior"], ws1,
            reOpt (RE.seq word1 ws1),
            RE.alt (reStr "than") (reStr "over")], ws1, litL tgt] ]),
    ("comparative",
      [ fun src tgt => reSeqs [litL src, ws1,
          reAlts [reSeqs [reStr "compare", reOpt (reStr "d"), ws1,
              RE.alt (reStr "to") (reStr "with")],
            RE.seq (reStr "vs") (reOpt (reStr ".")),
            reStr "versus"], ws1, litL tgt],
        fun src tgt => reSeqs [reSeqs [reStr "comparison", ws1,
          RE.alt (reStr "between") (reStr "of")], ws1, litL src, ws1,
          reStr "and", ws1, litL tgt] ]),
    ("part_of",
      [ fun src tgt => reSeqs [litL src, ws1,
          reAlts [reStr "component", reStr "module", reStr "layer", reStr "part"],
          ws1, reStr "of", ws1, litL tgt],
        fun src tgt => reSeqs [litL tgt, ws1,
          reAlts [reSeqs [reStr "consist", reOpt (reStr "s"), ws1, reStr "of"],
            RE.seq (reStr "include") (reOpt (reStr "s")),
            RE.seq (reStr "contain") (reOpt (reStr "s"))], ws1, litL src] ]) ]

/-- _check_pattern_relation of relation_extractor.py: first relation type
whose pattern list has a match in the lower-cased context. -/
def checkPatternRelation (srcText tgtText context : String) : Option String :=
  let textLower := lowerL context.data
  let srcE := lowerL srcText.data
  let tgtE := lowerL tgtText.data
  (relationIndicators.find? (fun rp =>
    rp.2.any (fun pt => reSearch (pt srcE tgtE) textLower))).map (·.1)

/-- re.finditer match start positions of a literal pattern: left to right
and non-overlapping; an empty pattern matches at every offset. -/
def findPositions : Nat → List Char → List Char → Nat → List Nat
  | _, pat, [], i => if pat.isEmpty then [i] else []
  | 0, _, _, _ => []
  | f + 1, pat, c :: rest, i =>
    if pat.isPrefixOf (c :: rest) then
      if pat.isEmpty then i :: findPositions f pat rest (i + 1)
      else i :: findPositions f pat ((c :: rest).drop pat.length) (i + pat.length)
    else findPositions f pat rest (i + 1)

/-- _entities_co_occur of relation_extractor.py. -/
def entitiesCoOccur (e1Text e2Text context : String) (window : ℕ) : Bool :=
  let textLower := lowerL context.data
  let pos1 := findPositions (textLower.length + 1) (lowerL e1Text.data) textLower 0
  let pos2 := findPositions (textLower.length + 1) (lowerL e2Text.data) textLower 0
  if pos1.isEmpty || pos2.isEmpty then false
  else pos1.any (fun p1 => pos2.any (fun p2 =>
    decide (((p1 : ℤ) - (p2 : ℤ)).natAbs < window)))

/-- TYPE_RELATIONS of relation_extractor.py. -/
def typeRelations : List ((String × String) × String) :=
  [ (("method", "dataset"), "evaluates_on"),
    (("method", "metric"), "evaluates_on"),
    (("method", "tool"), "uses"),
    (("method", "theory"), "uses"),
    (("method", "baseline"), "comparative"),
    (("innovation", "method"), "improves"),
    (("innovation", "baseline"), "improves"),
    (("research_problem", "method"), "causal"),
    (("research_problem", "innovation"), "causal") ]

/-- Dictionary lookup in TYPE_RELATIONS. -/
def typeRelGet (p : String × String) : Option String :=
  (typeRelations.find? (fun q => q.1 = p)).map (·.2)

/-- The body of the double loop of extract_relationships for one ordered
index pair (i < j): seen-pair dedup, pattern path with swap on reversed
match at confidence 0.7, then co-occurrence plus type heuristics at 0.5. -/
def procPair (context : String) (e1 e2 : Entity)
    (st : List (String × String) × List Rel) : List (String × String) × List Rel :=
  let pairKey := (strToLower e1.text, strToLower e2.text)
  if pairKey ∈ st.1 then st
  else
    let swapped :=
      match checkPatternRelation e1.text e2.text context with
      | some rt => some (e1.text, e2.text, rt)
      | none =>
        match checkPatternRelation e2.text e1.text context with
        | some rt => some (e2.text, e1.text, rt)
        | none => none
    match swapped with
    | some stt =>
      (st.1 ++ [pairKey], st.2 ++ [⟨stt.1, stt.2.1, stt.2.2,
        stt.1 ++ " " ++ stt.2.2 ++ " " ++ stt.2.1, 7 / 10⟩])
    | none =>
      if entitiesCoOccur e1.text e2.text context 250 then
        let typePair := (e1.entity_type, e2.entity_type)
        match typeRelGet typePair with
        | some rt =>
          (st.1 ++ [pairKey], st.2 ++ [⟨e1.text, e2.text, rt,
            e1.text ++ " " ++ rt ++ " " ++ e2.text, 1 / 2⟩])
        | none =>
          match typeRelGet (typePair.2, typePair.1) with
          | some rt =>
            (st.1 ++ [pairKey], st.2 ++ [⟨e2.text, e1.text, rt,
              e2.text ++ " " ++ rt ++ " " ++ e1.text, 1 / 2⟩])
          | none => st
      else st

/-- The inner loop over the entities after e1 (the i < j filter of the
source loop amounts to pairing each entity with the tail of the list). -/
def innerLoop (context : String) (e1 : Entity) :
    List Entity → List (String × String) × List Rel →
    List (String × String) × List Rel
  | [], st => st
  | e2 :: rest, st => innerLoop context e1 rest (procPair context e1 e2 st)

/-- The outer loop of extract_relationships. -/
def outerLoop (context : String) :
    List Entity → List (String × String) × List Rel →
    List (String × String) × List Rel
  | [], st => st
  | e1 :: rest, st => outerLoop context rest (innerLoop context e1 rest st)

/-- extract_relationships of relation_extractor.py. -/
def extractRelationships (entities : List Entity) (context : String) : List Rel :=
  if entities.isEmpty ∨ entities.length < 2 then []
  else (outerLoop context (entities.take 40) ([], [])).2

/-! ### entity_recognizer.py

The extraction control flow (shared seen set, key computation, guards,
section gating, output order) is translated from the source; the Python
re.finditer match streams over the keyword patterns are modelled as
explicit input lists of matched-group strings, in iteration order, since
the backtracking captures of those large patterns live in the regex
library, not in the repository code. -/

/-- _match_patterns of entity_recognizer.py over a given match stream:
dedup key is the lower-cased stripped match, the stored text is the
stripped match with its case preserved, confidence 0.8. -/
def matchPatterns : List String → String → List String → List String × List Entity
  | [], _, seen => (seen, [])
  | m :: rest, etype, seen =>
    let key := pyStrip (strToLower m)
    if key ∉ seen ∧ 1 < key.length then
      let res := matchPatterns rest etype (seen ++ [key])
      (res.1, ⟨pyStrip m, etype, 8 / 10⟩ :: res.2)
    else matchPatterns rest etype seen

/-- The DATASET_GENERIC loop of extract_entities over the stream of
group-1 matches, confidence 0.65. -/
def genericDatasetRun : List String → List String → List String × List Entity
  | [], seen => (seen, [])
  | g :: rest, seen =>
    let name := pyStrip g
    let key := strToLower name
    if key ∉ seen ∧ 2 < name.length then
      let res := genericDatasetRun rest (seen ++ [key])
      (res.1, ⟨name, "dataset", 13 / 20⟩ :: res.2)
    else genericDatasetRun rest seen

/-- _extract_research_problems of entity_recognizer.py over the stream of
group-1 matches, confidence 0.6. -/
def researchProblemsRun : List String → List String → List String × List Entity
  | [], seen => (seen, [])
  | g :: rest, seen =>
    let matched := pyStrip g
    let key := strToLower matched
    if key ∉ seen ∧ 10 < matched.length ∧ matched.length < 200 then
      let res := researchProblemsRun rest (seen ++ [key])
      (res.1, ⟨matched, "research_problem", 3 / 5⟩ :: res.2)
    else researchProblemsRun rest seen

/-- A separator of the baseline-splitting regex r",\s*|\s+and\s+" matched
at the head of the list, alternatives in source order. -/
def baselineSepAt (cs : List Char) : Option Nat :=
  match cs with
  | ',' :: rest => some (1 + (rest.takeWhile isPySpace).length)
  | _ =>
    let w := cs.takeWhile isPySpace
    if w.isEmpty then none
    else match cs.drop w.length with
      | 'a' :: 'n' :: 'd' :: r2 =>
        let w2 := r2.takeWhile isPySpace
        if w2.isEmpty then none else some (w.length + 3 + w2.length)
      | _ => none

/-- Scanner for re.split over the baseline separators. -/
def baselineSplitGo : Nat → List Char → List Char → List String → List String
  | _, [], piece, acc => acc ++ [⟨piece.reverse⟩]
  | 0, rest, piece, acc => acc ++ [⟨piece.reverse ++ rest⟩]
  | f + 1, c :: rest, piece, acc =>
    match baselineSepAt (c :: rest) with
    | some n => baselineSplitGo f ((c :: rest).drop n) [] (acc ++ [⟨piece.reverse⟩])
    | none => baselineSplitGo f rest (c :: piece) acc

/-- re.split(r",\s*|\s+and\s+", raw). -/
def baselineSplit (s : String) : List String :=
  baselineSplitGo (s.data.length + 1) s.data [] []

/-- part.strip().rstrip(".") of the baseline loop. -/
def baselinePartClean (p : String) : String :=
  ⟨rstripSet (fun c => c = '.') (pyStripL p.data)⟩

/-- part[0].islower() of the baseline loop (false on the empty string,
which the length guard excludes anyway). -/
def firstCharLower (s : String) : Bool :=
  match s.data with | c :: _ => c.isLower | [] => false

/-- The inner part loop of _extract_baselines: strip, strip trailing dots,
lower-cased key, guards on length and a non-lower-case first character. -/
def baselineParts : List String → List String → List String × List Entity
  | [], seen => (seen, [])
  | p :: rest, seen =>
    let part := baselinePartClean p
    if strToLower part ∉ seen ∧ 2 < part.length ∧ part.length < 80 ∧
        ¬ firstCharLower part then
      let res := baselineParts rest (seen ++ [strToLower part])
      (res.1, ⟨part, "baseline", 3 / 5⟩ :: res.2)
    else baselineParts rest seen

/-- _extract_baselines of entity_recognizer.py over the stream of group-1
matches of its two comparison patterns. -/
def baselinesRun : List String → List String → List String × List Entity
  | [], seen => (seen, [])
  | raw :: rest, seen =>
    let res1 := baselineParts (baselineSplit (pyStrip raw)) seen
    let res2 := baselinesRun rest res1.1
    (res2.1, res1.2 ++ res2.2)

/-- extract_entities of entity_recognizer.py.  The eight stream arguments
are the re.finditer matched groups of the five keyword pattern families,
the generic dataset pattern, the research-problem patterns and the
baseline patterns, over the first 12000 characters of the content. -/
def extractEntities (sectionType content : String)
    (dsM metM methM toolM thM genM probM basM : List String) : List Entity :=
  if content = "" ∨ (pyStrip content).length < 30 then []
  else
    let r1 := matchPatterns dsM "dataset" []
    let r2 := matchPatterns metM "metric" r1.1
    let r3 := matchPatterns methM "method" r2.1
    let r4 := matchPatterns toolM "tool" r3.1
    let r5 := matchPatterns thM "theory" r4.1
    let r6 := genericDatasetRun genM r5.1
    let r7 :=
      if sectionType = "abstract" ∨ sectionType = "introduction" ∨
          sectionType = "other" then
        researchProblemsRun probM r6.1
      else (r6.1, [])
    let r8 :=
      if sectionType = "experiments" ∨ sectionType = "results" ∨
          sectionType = "discussion" ∨ sectionType = "other" then
        baselinesRun basM r7.1
      else (r7.1, [])
    r1.2 ++ r2.2 ++ r3.2 ++ r4.2 ++ r5.2 ++ r6.2 ++ r7.2 ++ r8.2

/-! ### pymupdf_parser.py: extract_tables_from_pdf

The PyMuPDF find_tables/extract results are modelled as input data: one
PageData per PDF page, holding the page text and the extracted cell
matrices (cells may be None).  The header/row cleaning, the page-number
field and the caption search are translated from the source. -/

structure PageData where
  pageText : String
  tables : List (List (List (Option String)))
  deriving DecidableEq, Repr

structure TableRec where
  page : ℤ
  headers : List String
  rows : List (List String)
  caption : String
  deriving DecidableEq, Repr

/-- str(cell or "") of the source. -/
def cellStr (c : Option String) : String :=
  match c with | none => "" | some s => s

/-- Python truthiness of a cell (None and the empty string are falsy). -/
def cellTruthy (c : Option String) : Bool :=
  match c with | none => false | some s => s ≠ ""

/-- The row loop of extract_tables_from_pdf: skip all-falsy rows, keep
rows with some content beyond dashes; a row shorter than a kept column
index raises IndexError in Python, which the per-table except swallows,
dropping the whole table (hence the None result). -/
def processRows (idxs : List ℕ) : List (List (Option String)) → Option (List (List String))
  | [] => some []
  | row :: rest =>
    if ¬ row.any cellTruthy then processRows idxs rest
    else if idxs.any (fun i => row.length ≤ i) then none
    else
      let cleanRow := idxs.map (fun i => pyStrip (cellStr (row.getD i none)))
      let keep := cleanRow.any (fun c => c ≠ "" ∧ c ≠ "—" ∧ c ≠ "-")
      (processRows idxs rest).map (fun rs => if keep then cleanRow :: rs else rs)

/-- The header/row cleaning of one extracted table; None means the table
is skipped (too small, no non-empty header column, no data row, or a row
access error). -/
def processTable (extracted : List (List (Option String))) :
    Option (List String × List (List String)) :=
  match extracted with
  | [] => none
  | hdr :: rows =>
    if extracted.length < 2 then none
    else
      let rawHeaders := hdr.map (fun c => pyStrip (cellStr c))
      let idxs := (List.range rawHeaders.length).filter
        (fun i => rawHeaders.getD i "" ≠ "")
      if idxs.isEmpty then none
      else
        let headers := idxs.map (fun i => rawHeaders.getD i "")
        match processRows idxs rows with
        | none => none
        | some rs => if rs.isEmpty then none else some (headers, rs)

/-- The `Table\s+\d+[.:]` head of the first caption pattern, matched
case-insensitively; returns its length. -/
def capPre1 (cs : List Char) : Option Nat :=
  if reMatchHere (reStrCI "table") cs then
    let r1 := cs.drop 5
    let w := r1.takeWhile isPySpace
    if w.isEmpty then none
    else
      let r2 := r1.drop w.length
      let d := r2.takeWhile Char.isDigit
      if d.isEmpty then none
      else match r2.drop d.length with
        | c :: _ => if c = '.' ∨ c = ':' then some (5 + w.length + d.length + 1)
                    else none
        | [] => none
  else none

/-- The `表\s*\d+[.:：]` head of the Chinese caption pattern. -/
def capPre2 (cs : List Char) : Option Nat :=
  match cs with
  | '表' :: rest =>
    let w := rest.takeWhile isPySpace
    let r2 := rest.drop w.length
    let d := r2.takeWhile Char.isDigit
    if d.isEmpty then none
    else match r2.drop d.length with
      | c :: _ => if c = '.' ∨ c = ':' ∨ c = '：' then
                    some (1 + w.length + d.length + 1)
                  else none
      | [] => none
  | _ => none

/-- Resolve the greedy `\s*` gap and the lazy `.{5,200}?` body after the
caption head: the body must stop at the first newline or the end; the gap
is tried from its maximal extent downward, as backtracking does. -/
def tryCapG (afterPre : List Char) : Nat → Option (Nat × Nat)
  | 0 =>
    let d := (afterPre.takeWhile (fun c => c ≠ '\n')).length
    if 5 ≤ d ∧ d ≤ 200 then some (0, d) else none
  | g + 1 =>
    let rest := afterPre.drop (g + 1)
    let d := (rest.takeWhile (fun c => c ≠ '\n')).length
    if 5 ≤ d ∧ d ≤ 200 then some (g + 1, d) else tryCapG afterPre g

/-- re.findall scanner for one caption pattern: left to right,
non-overlapping, resuming after the consumed newline terminator. -/
def capScanGo (pre : List Char → Option Nat) : Nat → List Char → List String → List String
  | _, [], acc => acc
  | 0, _, acc => acc
  | f + 1, c :: rest, acc =>
    match pre (c :: rest) with
    | some p =>
      let afterPre := (c :: rest).drop p
      match tryCapG afterPre (afterPre.takeWhile isPySpace).length with
      | some gd =>
        let matchedLen := p + gd.1 + gd.2
        let rest2 := (c :: rest).drop matchedLen
        let skip : Nat := match rest2 with | '\n' :: _ => 1 | _ => 0
        capScanGo pre f ((c :: rest).drop (matchedLen + skip))
          (acc ++ [⟨(c :: rest).take matchedLen⟩])
      | none => capScanGo pre f rest acc
    | none => capScanGo pre f rest acc

/-- _find_table_caption of pymupdf_parser.py (its table_bbox argument is
never read); the third pattern equals the first under IGNORECASE, so its
findall pass is a rerun of the first. -/
def findTableCaption (pageText : String) (tableIndex : ℕ) : String :=
  let cs := pageText.data
  let captions := capScanGo capPre1 (cs.length + 1) cs []
    ++ capScanGo capPre2 (cs.length + 1) cs []
    ++ capScanGo capPre1 (cs.length + 1) cs []
  if captions.isEmpty then ""
  else if tableIndex < captions.length then pyStrip (captions.getD tableIndex "")
  else pyStrip (captions.getD 0 "")

/-- re.sub of the `^Table\s+\d+[.:]?\s*` prefix (case-insensitive); the
second clean-up pattern is identical under IGNORECASE. -/
def ccSub1 (cs : List Char) : List Char :=
  if reMatchHere (reStrCI "table") cs then
    let r1 := cs.drop 5
    let w := r1.takeWhile isPySpace
    if w.isEmpty then cs
    else
      let r2 := r1.drop w.length
      let d := r2.takeWhile Char.isDigit
      if d.isEmpty then cs
      else
        let r3 := r2.drop d.length
        let r4 := match r3 with
          | c :: rest => if c = '.' ∨ c = ':' then rest else r3
          | [] => r3
        r4.dropWhile isPySpace
  else cs

/-- re.sub of the `^Tab\.?\s+\d+[.:]?\s*` prefix (case-insensitive). -/
def ccSub3 (cs : List Char) : List Char :=
  let attempt := fun (r : List Char) =>
    let w := r.takeWhile isPySpace
    if w.isEmpty then none
    else
      let r2 := r.drop w.length
      let d := r2.takeWhile Char.isDigit
      if d.isEmpty then none
      else
        let r3 := r2.drop d.length
        let r4 := match r3 with
          | c :: rest => if c = '.' ∨ c = ':' then rest else r3
          | [] => r3
        some (r4.dropWhile isPySpace)
  if reMatchHere (reStrCI "tab") cs then
    let r1 := cs.drop 3
    match r1 with
    | '.' :: r1d =>
      (match attempt r1d with
       | some res => res
       | none => match attempt r1 with | some res => res | none => cs)
    | _ => match attempt r1 with | some res => res | none => cs
  else cs

/-- re.sub of the `^表\s*\d+[.:：]?\s*` prefix. -/
def ccSub4 (cs : List Char) : List Char :=
  match cs with
  | '表' :: rest =>
    let w := rest.takeWhile isPySpace
    let r2 := rest.drop w.length
    let d := r2.takeWhile Char.isDigit
    if d.isEmpty then cs
    else
      let r3 := r2.drop d.length
      let r4 := match r3 with
        | c :: r => if c = '.' ∨ c = ':' ∨ c = '：' then r else r3
        | [] => r3
      r4.dropWhile isPySpace
  | _ => cs

/-- _clean_caption of pymupdf_parser.py. -/
def cleanCaption (caption : String) : String :=
  if caption = "" then ""
  else pyStrip ⟨ccSub4 (ccSub3 (ccSub1 (ccSub1 caption.data)))⟩

/-- The per-page table loop body: every record on page pageNum carries
page = pageNum + 1 (1-indexed page numbers, as the source comments). -/
def tablesOnPage (pageNum : ℕ) (pd : PageData) : List TableRec :=
  pd.tables.enum.filterMap (fun tt =>
    (processTable tt.2).map (fun hr =>
      { page := (pageNum : ℤ) + 1, headers := hr.1, rows := hr.2,
        caption := cleanCaption (findTableCaption pd.pageText tt.1) }))

/-- The page loop of extract_tables_from_pdf. -/
def extractTablesGo : ℕ → List PageData → List TableRec
  | _, [] => []
  | n, pd :: rest => tablesOnPage n pd ++ extractTablesGo (n + 1) rest

/-- extract_tables_from_pdf of pymupdf_parser.py over the modelled
per-page data. -/
def extractTablesFromPdf (pages : List PageData) : List TableRec :=
  extractTablesGo 0 pages

/-! ### Concrete example inputs used by the theorems -/

/-- A one-page document with an Introduction heading at 14pt, body text at
12pt, and a bold 14pt fragment whose classification is other. -/
def exPage3 : ParsedPage :=
  { page_num := 0, width := 612, height := 792,
    blocks := [
      ⟨"Introduction", 14, "F", false, 0, (0, 0, 100, 10)⟩,
      ⟨"The quick brown fox jumps over", 12, "F", false, 0, (0, 20, 100, 30)⟩,
      ⟨"Zzz Setup", 14, "F", true, 0, (0, 40, 100, 50)⟩,
      ⟨"the lazy dog sleeps all day", 12, "F", false, 0, (0, 60, 100, 70)⟩],
    raw_text := "" }

def exDoc3 : ParsedDocument := ⟨[exPage3], 1⟩

/-- The bold body-plus-half-point fragment of exPage3 at exactly the
heading font size. -/
def zzzBlock : TextBlock := ⟨"Zzz Setup", 14, "F", true, 0, (0, 40, 100, 50)⟩

/-- The sections analyze_layout produces on exDoc3. -/
def exSec3a : Sec :=
  ⟨"introduction", "Introduction",
    "The quick brown fox jumps over Zzz Setup the lazy dog sleeps all day ", 0, 0⟩

def exSec3b : Sec := ⟨"other", "Full Text", "", 0, 0⟩

/-- A marker-free two-line references text whose two lines both strip to
more than twenty characters. -/
def t4 : String :=
  "Alpha beta gamma delta epsilon zeta\nEta theta iota kappa lambda mu nu xi"

/-- The single-reference input of the specification example. -/
def t5 : String := "[1] Smith, J. and Doe, A. Deep Learning. NeurIPS, 2019."

/-- What _parse_single_reference actually produces on t5. -/
def exRef5 : Ref :=
  ⟨t5, none, ["[1] Smith", "J.", "Doe", "A. Deep Learning. NeurIPS"],
    some 2019, none, none, 0⟩

def bertE : Entity := ⟨"BERT", "method", 8 / 10⟩
def glueE : Entity := ⟨"GLUE", "dataset", 8 / 10⟩

/-- A lower-case duplicate of the BERT entity text. -/
def bertLC : Entity := ⟨"bert", "method", 8 / 10⟩

def ctx7 : String := "We evaluate BERT on GLUE"

def exRel1 : Rel := ⟨"BERT", "GLUE", "evaluates_on", "BERT evaluates_on GLUE", 7 / 10⟩
def exRel2 : Rel := ⟨"bert", "GLUE", "evaluates_on", "bert evaluates_on GLUE", 7 / 10⟩

/-- The section content of the entity-recognizer example; re.finditer of
the first baseline pattern over it yields exactly one group-1 match,
recorded in basStream8, and no other extractor pattern matches. -/
def c8content : String := "compared with ABC ., ABC and filler text here ok."

def basStream8 : List String := ["ABC ., ABC and filler text here ok"]

/-- A one-page table input with two header columns and one data row. -/
def pd10 : PageData := ⟨"", [[[some "H1", some "H2"], [some "a", some "b"]]]⟩

/-- Substring test on character lists (used to state that no section
content contains the subsection marker). -/
def containsSub (needle hay : List Char) : Bool :=
  (List.range (hay.length + 1)).any (fun i => needle.isPrefixOf (hay.drop i))

/-! ## Theorems for the claims -/

theorem finalizeSections_ne_nil (ft : String) (pc : ℤ) (s : List Sec) :
    finalizeSections ft pc s ≠ [] := by
  unfold finalizeSections
  split
  · simp
  · next h =>
    intro he
    rw [he] at h
    simp at h

/-- C1 counterexample: on a document with zero pages analyze_layout
returns the empty section list, so the claim that the returned list always
has at least one element (including for zero-page input) is false. -/
theorem C1_counterexample :
    analyzeLayout ⟨[], 0⟩ = ([], "en") ∧
    ¬ 1 ≤ ((analyzeLayout ⟨[], 0⟩).1).length := by
  constructor
  · rfl
  · decide

/-- C1 amended: for every document with at least one page, analyze_layout
returns a non-empty section list (the final guard appends a full-text
section whenever at most one section survives); zero-page documents
return the empty list. -/
theorem C1_nonempty (doc : ParsedDocument) (h : doc.pages ≠ []) :
    (analyzeLayout doc).1 ≠ [] := by
  unfold analyzeLayout
  have hne : doc.pages.isEmpty = false := by
    cases hp : doc.pages with
    | nil => exact absurd hp h
    | cons a l => rfl
  rw [if_neg (by simp [hne])]
  exact finalizeSections_ne_nil _ _ _

/-- C1 witness: the amended theorem applied to the concrete one-page
document. -/
theorem C1_witness : exDoc3.pages ≠ [] ∧ (analyzeLayout exDoc3).1 ≠ [] :=
  ⟨by decide, C1_nonempty exDoc3 (by decide)⟩

/-- The language rule as the claim words it: CJK count over the number of
non-white-space characters of the whole text. -/
def detectLanguageSpecNonWs (text : String) : String :=
  let cjk : ℕ := (text.data.filter isCJK).length
  let nonWs : ℕ := (text.data.filter (fun c => !isPySpace c)).length
  if nonWs = 0 then "en"
  else if (3 : ℚ) / 10 < (cjk : ℚ) / (nonWs : ℚ) then "zh"
  else "en"

/-- C2 counterexample: on a text with interior white space the code
divides by the stripped length (interior spaces included), not by the
non-white-space count, so the claimed rule and detect_language disagree:
two CJK of five non-space characters is over 30 percent, yet the code
sees two of nine and answers en. -/
theorem C2_counterexample :
    detectLanguage "中 中 a a a" = "en" ∧
    detectLanguageSpecNonWs "中 中 a a a" = "zh" := by
  with_unfolding_all decide

/-- C2 amended: detect_language returns zh exactly when the CJK count
divided by the length of the text with leading and trailing white space
stripped (interior white space still counted) exceeds 0.3; empty and
white-space-only text yields en. -/
theorem C2_language_rule :
    (∀ s : String, detectLanguage s = "zh" ↔
      ((pyStrip s).length ≠ 0 ∧
        (3 : ℚ) / 10 <
          ((s.data.filter isCJK).length : ℚ) / ((pyStrip s).length : ℚ))) ∧
    detectLanguage "" = "en" := by
  constructor
  · intro s
    unfold detectLanguage
    by_cases h0 : (pyStripL s.data).length = 0
    · rw [if_pos h0]
      constructor
      · intro he; exact absurd he (by decide)
      · intro hc; exact absurd h0 hc.1
    · rw [if_neg h0]
      have hlen : (pyStrip s).length = (pyStripL s.data).length := rfl
      by_cases hr : (3 : ℚ) / 10 <
          ((s.data.filter isCJK).length : ℚ) / ((pyStripL s.data).length : ℚ)
      · rw [if_pos hr]
        exact ⟨fun _ => ⟨by rw [hlen]; exact h0, by rw [hlen]; exact hr⟩, fun _ => rfl⟩
      · rw [if_neg hr]
        constructor
        · intro he; exact absurd he (by decide)
        · intro hc; exact absurd (by rw [← hlen]; exact hc.2) hr
  · rfl

/-- C2 witness: the amended rule applied to a concrete majority-CJK
text. -/
theorem C2_witness : detectLanguage "中中中中a" = "zh" :=
  (C2_language_rule.1 "中中中中a").mpr ⟨by decide, by with_unfolding_all decide⟩

theorem headingCheck_signal_a (bodySize headingSize : ℚ) (b : TextBlock) (text : String)
    (hlen : text.length < 200)
    (hge : headingSize ≤ b.font_size)
    (hor : b.is_bold = true ∨ bodySize + 1 / 2 < b.font_size) :
    headingCheck bodySize headingSize b text = (true, classifySection text) := by
  unfold headingCheck
  rw [if_pos ⟨hge, hlen⟩, if_pos hor]
  simp

/-- C3 counterexample: on exDoc3 the merged fragment Zzz Setup fires
signal (a) (font size equal to the heading size and bold) and classifies
as other, an Introduction section is open, yet analyze_layout appends it
as plain body text: no section content contains the claimed subsection
marker.  The embed-as-marker branch demands a strictly larger font. -/
theorem C3_counterexample :
    findHeadingFontSize exDoc3 = (12, 14) ∧
    zzzBlock ∈ mergeAdjacentBlocks exPage3.blocks ∧
    (findHeadingFontSize exDoc3).2 ≤ zzzBlock.font_size ∧
    (zzzBlock.is_bold = true ∨ (findHeadingFontSize exDoc3).1 + 1 / 2 < zzzBlock.font_size) ∧
    classifySection (pyStrip zzzBlock.text) = "other" ∧
    analyzeLayout exDoc3 = ([exSec3a, exSec3b], "en") ∧
    containsSub ("\n### " ++ pyStrip zzzBlock.text ++ "\n").data exSec3a.content.data = false ∧
    containsSub ("\n### " ++ pyStrip zzzBlock.text ++ "\n").data exSec3b.content.data = false := by
  with_unfolding_all decide

/-- C3 amended: a fragment that fires signal (a) with classification
other is embedded into the open section as a subsection marker only when
its font size strictly exceeds the heading size (and it is shorter than
200 characters, the length bound of check 1); at font size exactly equal
to the heading size it is appended as plain body text, and with no open
section it starts a new untyped section instead. -/
theorem C3_subsection_embed (bodySize headingSize : ℚ) (sections : List Sec) (c : Sec)
    (b : TextBlock)
    (htext : pyStrip b.text ≠ "")
    (hlen : (pyStrip b.text).length < 200)
    (hge : headingSize ≤ b.font_size)
    (hor : b.is_bold = true ∨ bodySize + 1 / 2 < b.font_size)
    (hcls : classifySection (pyStrip b.text) = "other")
    (hstrict : headingSize < b.font_size) :
    processBlock bodySize headingSize (sections, some c) b =
      (sections, some { c with
        content := c.content ++ "\n### " ++ pyStrip b.text ++ "\n"
        page_end := b.page_num }) := by
  have hhc := headingCheck_signal_a bodySize headingSize b (pyStrip b.text) hlen hge hor
  rw [hcls] at hhc
  unfold processBlock
  rw [if_neg htext]
  simp [hhc, hstrict]

def wSec : Sec := ⟨"methods", "Methods", "existing content ", 0, 0⟩
def wBlock : TextBlock := ⟨"Qq Rr", 15, "F", false, 0, (0, 0, 100, 10)⟩

/-- C3 witness: the amended theorem applied to a concrete open section
and a concrete 15pt fragment over body size 12 and heading size 14. -/
theorem C3_witness :
    pyStrip wBlock.text ≠ "" ∧
    classifySection (pyStrip wBlock.text) = "other" ∧
    processBlock 12 14 ([], some wSec) wBlock =
      ([], some { wSec with
        content := wSec.content ++ "\n### " ++ pyStrip wBlock.text ++ "\n"
        page_end := wBlock.page_num }) :=
  ⟨by decide, by decide,
    C3_subsection_embed 12 14 [] wSec wBlock (by decide) (by decide)
      (by with_unfolding_all decide) (Or.inr (by with_unfolding_all decide))
      (by decide) (by with_unfolding_all decide)⟩

/-- C4 counterexample: a marker-free text with two lines that both strip
to more than twenty characters yields a single reference spanning the
whole text, not one reference per such line: the structured phase puts
the entire text into one block, so the per-line fallback never runs. -/
theorem C4_counterexample :
    refBlocks t4 = [t4] ∧
    ((splitLines t4).filter (fun l => 20 < (pyStrip l).length)).length = 2 ∧
    (parseReferences t4).length = 1 ∧
    (parseReferences t4).length ≠
      ((splitLines t4).filter (fun l => 20 < (pyStrip l).length)).length := by
  decide

/-- C4 amended: when the splitter finds no structured marker anywhere,
parse_references puts the whole text into one block; if the stripped text
is non-empty and not a pure digit string, the result is a single
reference built from the whole stripped text with order 0.  The per-line
fallback runs only when this phase produced no reference at all. -/
theorem C4_marker_free (text : String)
    (hnomark : refBlocks text = [text])
    (hne : pyStrip text ≠ "")
    (hnd : isDigitStr (pyStripL text.data) = false) :
    parseReferences text = [parseSingleReference (pyStrip text) 0] := by
  unfold parseReferences
  rw [hnomark]
  simp only [List.foldl_cons, List.foldl_nil, hnd, Bool.false_eq_true, if_false,
    String.empty_append]
  rw [if_pos hne]
  simp

/-- C4 witness: the amended theorem applied to the concrete two-line
marker-free text. -/
theorem C4_witness :
    refBlocks t4 = [t4] ∧ pyStrip t4 ≠ "" ∧ isDigitStr (pyStripL t4.data) = false ∧
    parseReferences t4 = [parseSingleReference (pyStrip t4) 0] :=
  ⟨by decide, by decide, by decide,
    C4_marker_free t4 (by decide) (by decide) (by decide)⟩

/-- C5 counterexample: on the example reference string the author split
runs over the whole prefix before the year, bracket included, so the
authors are not the claimed pair: the marker [1] is glued to Smith and
the title words end up inside the last author fragment. -/
theorem C5_counterexample :
    parseReferences t5 = [exRef5] ∧
    exRef5.authors ≠ ["Smith, J.", "Doe, A."] := by
  decide

/-- C5 amended: parse_references on the example string returns, without
raising, exactly one reference with year 2019, title None (the second
dot-separated part has exactly ten characters, failing the strict
greater-than-ten test), and authors obtained by splitting the text before
the year on and, comma and ampersand: the bracket marker stays glued to
the first author and the title text leaks into the last fragment. -/
theorem C5_example_reference :
    parseReferences t5 = [exRef5] ∧
    exRef5.year = some 2019 ∧ exRef5.title = none ∧
    exRef5.authors = ["[1] Smith", "J.", "Doe", "A. Deep Learning. NeurIPS"] := by
  decide

/-- C7: on the two entities BERT (method) and GLUE (dataset) with context
We evaluate BERT on GLUE, extract_relationships returns exactly one
relationship, BERT evaluates_on GLUE at confidence 0.7 (the lexical
pattern path, not the 0.5 co-occurrence fallback); and in general, on a
two-entity list where only the reversed orientation of a lexical pattern
matches, source and target are swapped before recording, still at 0.7. -/
theorem C7_lexical_path :
    extractRelationships [bertE, glueE] ctx7 = [exRel1] ∧
    (∀ (e1 e2 : Entity) (context rt : String),
      checkPatternRelation e1.text e2.text context = none →
      checkPatternRelation e2.text e1.text context = some rt →
      extractRelationships [e1, e2] context =
        [⟨e2.text, e1.text, rt, e2.text ++ " " ++ rt ++ " " ++ e1.text, 7 / 10⟩]) := by
  constructor
  · with_unfolding_all decide
  · intro e1 e2 context rt h1 h2
    unfold extractRelationships
    rw [if_neg (by simp)]
    simp [outerLoop, innerLoop, procPair, h1, h2]

/-- C7 witness: the swap rule applied at the concrete reversed input,
where only the BERT-to-GLUE orientation matches. -/
theorem C7_witness :
    checkPatternRelation glueE.text bertE.text ctx7 = none ∧
    checkPatternRelation bertE.text glueE.text ctx7 = some "evaluates_on" ∧
    extractRelationships [glueE, bertE] ctx7 =
      [⟨bertE.text, glueE.text, "evaluates_on",
        bertE.text ++ " " ++ "evaluates_on" ++ " " ++ glueE.text, 7 / 10⟩] :=
  ⟨by decide, by decide,
    C7_lexical_path.2 glueE bertE ctx7 "evaluates_on" (by decide) (by decide)⟩

/-- Two relationships relate the same unordered case-insensitive pair of
texts. -/
def upEq (r r2 : Rel) : Prop :=
  (strToLower r.source = strToLower r2.source ∧
    strToLower r.target = strToLower r2.target) ∨
  (strToLower r.source = strToLower r2.target ∧
    strToLower r.target = strToLower r2.source)

/-- The fields of an emitted relationship come from its generating entity
pair, in one of the two orientations. -/
def relFromPair (e1 e2 : Entity) (r : Rel) : Prop :=
  (r.source = e1.text ∧ r.target = e2.text) ∨
  (r.source = e2.text ∧ r.target = e1.text)

theorem procPair_cases (context : String) (e1 e2 : Entity)
    (st : List (String × String) × List Rel) :
    (procPair context e1 e2 st).2 = st.2 ∨
    ∃ r, (procPair context e1 e2 st).2 = st.2 ++ [r] ∧ relFromPair e1 e2 r := by
  simp only [procPair]
  by_cases hk : (strToLower e1.text, strToLower e2.text) ∈ st.1
  · rw [if_pos hk]
    first
      | exact Or.inl rfl
      | exact Or.inl trivial
  · rw [if_neg hk]
    cases h1 : checkPatternRelation e1.text e2.text context with
    | some rt =>
      simp only [h1]
      exact Or.inr ⟨_, rfl, Or.inl ⟨rfl, rfl⟩⟩
    | none =>
      cases h2 : checkPatternRelation e2.text e1.text context with
      | some rt =>
        simp only [h1, h2]
        exact Or.inr ⟨_, rfl, Or.inr ⟨rfl, rfl⟩⟩
      | none =>
        simp only [h1, h2]
        by_cases hco : entitiesCoOccur e1.text e2.text context 250 = true
        · rw [if_pos hco]
          cases h3 : typeRelGet (e1.entity_type, e2.entity_type) with
          | some rt =>
            simp only [h3]
            exact Or.inr ⟨_, rfl, Or.inl ⟨rfl, rfl⟩⟩
          | none =>
            cases h4 : typeRelGet (e2.entity_type, e1.entity_type) with
            | some rt =>
              simp only [h3, h4]
              exact Or.inr ⟨_, rfl, Or.inr ⟨rfl, rfl⟩⟩
            | none =>
              simp only [h3, h4]
              first
                | exact Or.inl rfl
                | exact Or.inl trivial
        · rw [if_neg hco]
          first
            | exact Or.inl rfl
            | exact Or.inl trivial

theorem upEq_of_pairs {e1 e2 e2b : Entity} {r r2 : Rel}
    (h1 : relFromPair e1 e2 r) (h2 : relFromPair e1 e2b r2)
    (hq : upEq r r2) :
    strToLower e2.text = strToLower e2b.text ∨
    strToLower e1.text = strToLower e2.text ∨
    strToLower e1.text = strToLower e2b.text := by
  unfold relFromPair at h1 h2
  unfold upEq at hq
  rcases h1 with ⟨hs, ht⟩ | ⟨hs, ht⟩ <;> rcases h2 with ⟨hs2, ht2⟩ | ⟨hs2, ht2⟩ <;>
    rw [hs, ht, hs2, ht2] at hq <;> rcases hq with ⟨ha, hb⟩ | ⟨ha, hb⟩ <;>
    first
      | exact Or.inl ha | exact Or.inl hb
      | exact Or.inl ha.symm | exact Or.inl hb.symm
      | exact Or.inr (Or.inl ha) | exact Or.inr (Or.inl ha.symm)
      | exact Or.inr (Or.inl hb) | exact Or.inr (Or.inl hb.symm)
      | exact Or.inr (Or.inr ha) | exact Or.inr (Or.inr ha.symm)
      | exact Or.inr (Or.inr hb) | exact Or.inr (Or.inr hb.symm)

theorem innerLoop_inv (context : String) (e1 : Entity) :
    ∀ (rest : List Entity) (st : List (String × String) × List Rel),
    ∃ news, (innerLoop context e1 rest st).2 = st.2 ++ news ∧
      (∀ r ∈ news, ∃ e2 ∈ rest, relFromPair e1 e2 r) ∧
      ((∀ e2 ∈ rest, strToLower e2.text ≠ strToLower e1.text) →
        (rest.map (fun e => strToLower e.text)).Nodup →
        news.Pairwise (fun a b => ¬ upEq a b)) := by
  intro rest
  induction rest with
  | nil =>
    intro st
    exact ⟨[], by simp [innerLoop], by simp, fun _ _ => List.Pairwise.nil⟩
  | cons e2 rest ih =>
    intro st
    obtain ⟨news, hn, hmem, hpw⟩ := ih (procPair context e1 e2 st)
    have hstep : innerLoop context e1 (e2 :: rest) st =
        innerLoop context e1 rest (procPair context e1 e2 st) := rfl
    rcases procPair_cases context e1 e2 st with h | ⟨r, hr, hfp⟩
    · refine ⟨news, ?_, ?_, ?_⟩
      · rw [hstep, hn, h]
      · intro r hrm
        obtain ⟨e2b, he, hf⟩ := hmem r hrm
        exact ⟨e2b, List.mem_cons_of_mem _ he, hf⟩
      · intro hfresh hnd
        rw [List.map_cons, List.nodup_cons] at hnd
        exact hpw (fun x hx => hfresh x (List.mem_cons_of_mem _ hx)) hnd.2
    · refine ⟨r :: news, ?_, ?_, ?_⟩
      · rw [hstep, hn, hr, List.append_assoc]
        rfl
      · intro r2 hrm
        rcases List.mem_cons.1 hrm with he | he
        · exact ⟨e2, List.mem_cons_self _ _, he ▸ hfp⟩
        · obtain ⟨e2b, hb, hf⟩ := hmem r2 he
          exact ⟨e2b, List.mem_cons_of_mem _ hb, hf⟩
      · intro hfresh hnd
        rw [List.map_cons, List.nodup_cons] at hnd
        refine List.Pairwise.cons ?_
          (hpw (fun x hx => hfresh x (List.mem_cons_of_mem _ hx)) hnd.2)
        intro r2 hr2 hq
        obtain ⟨e2b, hb, hf2⟩ := hmem r2 hr2
        rcases upEq_of_pairs hfp hf2 hq with hcase | hcase | hcase
        · exact hnd.1 (by
            rw [hcase]
            exact List.mem_map.2 ⟨e2b, hb, rfl⟩)
        · exact hfresh e2 (List.mem_cons_self _ _) hcase.symm
        · exact hfresh e2b (List.mem_cons_of_mem _ hb) hcase.symm

theorem outerLoop_mem (context : String) :
    ∀ (es : List Entity) (st : List (String × String) × List Rel) (r : Rel),
    r ∈ (outerLoop context es st).2 →
    r ∈ st.2 ∨ (∃ e ∈ es, r.source = e.text) ∧ (∃ e ∈ es, r.target = e.text) := by
  intro es
  induction es with
  | nil =>
    intro st r hr
    exact Or.inl (by simpa [outerLoop] using hr)
  | cons e1 rest ih =>
    intro st r hr
    rw [show outerLoop context (e1 :: rest) st =
      outerLoop context rest (innerLoop context e1 rest st) from rfl] at hr
    rcases ih _ r hr with hin | ⟨⟨e, he, hs⟩, ⟨e2, he2, ht⟩⟩
    · obtain ⟨news, heq, hmem, _⟩ := innerLoop_inv context e1 rest st
      rw [heq] at hin
      rcases List.mem_append.1 hin with h | h
      · exact Or.inl h
      · obtain ⟨e2, he2, hfp⟩ := hmem r h
        rcases hfp with ⟨hs, ht⟩ | ⟨hs, ht⟩
        · exact Or.inr ⟨⟨e1, List.mem_cons_self _ _, hs⟩,
            ⟨e2, List.mem_cons_of_mem _ he2, ht⟩⟩
        · exact Or.inr ⟨⟨e2, List.mem_cons_of_mem _ he2, hs⟩,
            ⟨e1, List.mem_cons_self _ _, ht⟩⟩
    · exact Or.inr ⟨⟨e, List.mem_cons_of_mem _ he, hs⟩,
        ⟨e2, List.mem_cons_of_mem _ he2, ht⟩⟩

theorem outerLoop_pairwise (context : String) :
    ∀ (es : List Entity) (st : List (String × String) × List Rel),
    (es.map (fun e => strToLower e.text)).Nodup →
    (∀ r ∈ st.2, ∀ a ∈ es, ∀ b ∈ es,
      ¬ (strToLower r.source = strToLower a.text ∧
         strToLower r.target = strToLower b.text)) →
    st.2.Pairwise (fun a b => ¬ upEq a b) →
    (outerLoop context es st).2.Pairwise (fun a b => ¬ upEq a b) := by
  intro es
  induction es with
  | nil =>
    intro st _ _ hp
    simpa [outerLoop] using hp
  | cons e1 rest ih =>
    intro st hnd havoid hp
    rw [List.map_cons, List.nodup_cons] at hnd
    have hfresh : ∀ e2 ∈ rest, strToLower e2.text ≠ strToLower e1.text := by
      intro e2 he2 heq
      exact hnd.1 (by
        rw [← heq]
        exact List.mem_map.2 ⟨e2, he2, rfl⟩)
    obtain ⟨news, heq, hmem, hpw⟩ := innerLoop_inv context e1 rest st
    rw [show outerLoop context (e1 :: rest) st =
      outerLoop context rest (innerLoop context e1 rest st) from rfl]
    apply ih (innerLoop context e1 rest st) hnd.2
    · intro r hrm a ha b hb hq
      rw [heq] at hrm
      rcases List.mem_append.1 hrm with h | h
      · exact havoid r h a (List.mem_cons_of_mem _ ha) b (List.mem_cons_of_mem _ hb) hq
      · obtain ⟨e2, he2, hfp⟩ := hmem r h
        rcases hfp with ⟨hs, ht⟩ | ⟨hs, ht⟩
        · exact hfresh a ha (by rw [← hq.1, hs])
        · exact hfresh b hb (by rw [← hq.2, ht])
    · rw [heq]
      refine (List.pairwise_append).2 ⟨hp, hpw hfresh hnd.2, ?_⟩
      intro a ha b hb hq
      obtain ⟨e2, he2, hfp⟩ := hmem b hb
      rcases hfp with ⟨hs, ht⟩ | ⟨hs, ht⟩
      · rcases hq with ⟨h1, h2⟩ | ⟨h1, h2⟩
        · exact havoid a ha e1 (List.mem_cons_self _ _) e2 (List.mem_cons_of_mem _ he2)
            ⟨by rw [h1, hs], by rw [h2, ht]⟩
        · exact havoid a ha e2 (List.mem_cons_of_mem _ he2) e1 (List.mem_cons_self _ _)
            ⟨by rw [h1, ht], by rw [h2, hs]⟩
      · rcases hq with ⟨h1, h2⟩ | ⟨h1, h2⟩
        · exact havoid a ha e2 (List.mem_cons_of_mem _ he2) e1 (List.mem_cons_self _ _)
            ⟨by rw [h1, hs], by rw [h2, ht]⟩
        · exact havoid a ha e1 (List.mem_cons_self _ _) e2 (List.mem_cons_of_mem _ he2)
            ⟨by rw [h1, ht], by rw [h2, hs]⟩

/-- C6 counterexample: with the three entities BERT, GLUE and bert (a
case duplicate) and the evaluation context, two relationships are emitted
for the same unordered case-insensitive pair of texts, with the same
direction: the seen-pair key is the ordered lower-cased pair in index
order, so the pair (GLUE, bert), whose reversed lexical match swaps the
direction back to bert before GLUE, is not blocked by the earlier
(BERT, GLUE) key. -/
theorem C6_counterexample :
    extractRelationships [bertE, glueE, bertLC] ctx7 = [exRel1, exRel2] ∧
    exRel1 ≠ exRel2 ∧
    strToLower exRel1.source = strToLower exRel2.source ∧
    strToLower exRel1.target = strToLower exRel2.target ∧
    upEq exRel1 exRel2 := by
  refine ⟨by with_unfolding_all decide, by with_unfolding_all decide, ?_, ?_, ?_⟩
  · decide
  · decide
  · exact Or.inl ⟨by decide, by decide⟩

/-- C6 amended: every emitted relationship's source and target equal the
text of some input entity, unconditionally; and when the lower-cased
texts of the (first forty) entities are pairwise distinct, at most one
relationship is emitted per unordered case-insensitive pair.  With
case-duplicate entity texts the ordered index-wise seen key lets a second
relationship through for the same unordered pair, as the counterexample
shows. -/
theorem C6_dedup_and_membership (entities : List Entity) (context : String) :
    (∀ r ∈ extractRelationships entities context,
      (∃ e ∈ entities, r.source = e.text) ∧ (∃ e ∈ entities, r.target = e.text)) ∧
    (((entities.take 40).map (fun e => strToLower e.text)).Nodup →
      (extractRelationships entities context).Pairwise (fun a b => ¬ upEq a b)) := by
  constructor
  · intro r hr
    unfold extractRelationships at hr
    split at hr
    · simp at hr
    · rcases outerLoop_mem context (entities.take 40) ([], []) r hr with h | ⟨⟨e, he, hs⟩, ⟨e2, he2, ht⟩⟩
      · simp at h
      · exact ⟨⟨e, List.take_subset _ _ he, hs⟩, ⟨e2, List.take_subset _ _ he2, ht⟩⟩
  · intro hnd
    unfold extractRelationships
    split
    · exact List.Pairwise.nil
    · exact outerLoop_pairwise context (entities.take 40) ([], []) hnd
        (by intro r hr; simp at hr) List.Pairwise.nil

/-- C6 witness: the amended theorem applied to the two-entity input of
the evaluation example, whose texts are case-insensitively distinct. -/
theorem C6_witness :
    ((∃ e ∈ [bertE, glueE], exRel1.source = e.text) ∧
      (∃ e ∈ [bertE, glueE], exRel1.target = e.text)) ∧
    (extractRelationships [bertE, glueE] ctx7).Pairwise (fun a b => ¬ upEq a b) :=
  ⟨(C6_dedup_and_membership [bertE, glueE] ctx7).1 exRel1 (by with_unfolding_all decide),
    (C6_dedup_and_membership [bertE, glueE] ctx7).2 (by decide)⟩

/-- Distinct lower-cased entity texts (the dedup keys all four extraction
paths of extract_entities store in the shared seen set). -/
def keyDiff (a b : Entity) : Prop := strToLower a.text ≠ strToLower b.text

theorem strToLower_pyStrip (s : String) :
    strToLower (pyStrip s) = pyStrip (strToLower s) :=
  congrArg String.mk (pyStripL_lowerL s.data).symm

/-- All keys of the list avoid the seen set s, and the list keys are
pairwise distinct. -/
def afterInv (s : List String) (l : List Entity) : Prop :=
  (∀ e ∈ l, strToLower e.text ∉ s) ∧ l.Pairwise keyDiff

theorem afterInv_append {s s2 : List String} {b rest : List Entity}
    (hsub : ∀ x ∈ s, x ∈ s2)
    (hb : ∀ e ∈ b, strToLower e.text ∈ s2 ∧ strToLower e.text ∉ s)
    (hbP : b.Pairwise keyDiff)
    (hrest : afterInv s2 rest) :
    afterInv s (b ++ rest) := by
  constructor
  · intro e he
    rcases List.mem_append.1 he with h | h
    · exact (hb e h).2
    · intro hin
      exact (hrest.1 e h) (hsub _ hin)
  · refine (List.pairwise_append).2 ⟨hbP, hrest.2, ?_⟩
    intro a ha b2 hb2 heq
    exact (hrest.1 b2 hb2) (heq ▸ (hb a ha).1)

/-- The section-gated extraction steps of extract_entities preserve the
seen-set invariants: a skipped step changes nothing. -/
theorem condRun_inv (P : Prop) [Decidable P]
    (f : List String → List String × List Entity) (seen : List String)
    (hf : (∀ x ∈ seen, x ∈ (f seen).1) ∧
      (∀ e ∈ (f seen).2, strToLower e.text ∈ (f seen).1 ∧
        strToLower e.text ∉ seen) ∧
      (f seen).2.Pairwise keyDiff) :
    (∀ x ∈ seen, x ∈ (if P then f seen else (seen, [])).1) ∧
    (∀ e ∈ (if P then f seen else (seen, [])).2,
      strToLower e.text ∈ (if P then f seen else (seen, [])).1 ∧
      strToLower e.text ∉ seen) ∧
    (if P then f seen else (seen, [])).2.Pairwise keyDiff := by
  split
  · exact hf
  · exact ⟨fun x hx => hx, by intro e he; simp at he, List.Pairwise.nil⟩

theorem matchPatterns_inv (etype : String) (found : List String) :
    ∀ seen : List String,
    (∀ x ∈ seen, x ∈ (matchPatterns found etype seen).1) ∧
    (∀ e ∈ (matchPatterns found etype seen).2,
      strToLower e.text ∈ (matchPatterns found etype seen).1 ∧
      strToLower e.text ∉ seen) ∧
    (matchPatterns found etype seen).2.Pairwise keyDiff := by
  induction found with
  | nil =>
    intro seen
    exact ⟨fun x hx => hx, by intro e he; simp [matchPatterns] at he,
      List.Pairwise.nil⟩
  | cons m rest ih =>
    intro seen
    by_cases hc : pyStrip (strToLower m) ∉ seen ∧ 1 < (pyStrip (strToLower m)).length
    · have hred : matchPatterns (m :: rest) etype seen =
          ((matchPatterns rest etype (seen ++ [pyStrip (strToLower m)])).1,
            (⟨pyStrip m, etype, 8 / 10⟩ : Entity) ::
              (matchPatterns rest etype (seen ++ [pyStrip (strToLower m)])).2) := by
        simp only [matchPatterns]
        rw [if_pos hc]
      obtain ⟨hsub, hnew, hpw⟩ := ih (seen ++ [pyStrip (strToLower m)])
      rw [hred]
      refine ⟨?_, ?_, ?_⟩
      · intro x hx
        exact hsub x (List.mem_append.2 (Or.inl hx))
      · intro e he
        rcases List.mem_cons.1 he with he0 | he0
        · rw [he0]
          constructor
          · show strToLower (pyStrip m) ∈ _
            rw [strToLower_pyStrip]
            exact hsub _ (List.mem_append.2 (Or.inr (by simp)))
          · show strToLower (pyStrip m) ∉ seen
            rw [strToLower_pyStrip]
            exact hc.1
        · obtain ⟨hin, hnotin⟩ := hnew e he0
          exact ⟨hin, fun hs => hnotin (List.mem_append.2 (Or.inl hs))⟩
      · refine List.Pairwise.cons ?_ hpw
        intro e he heq
        apply (hnew e he).2
        rw [← heq]
        show strToLower (pyStrip m) ∈ _
        rw [strToLower_pyStrip]
        exact List.mem_append.2 (Or.inr (by simp))
    · have hred : matchPatterns (m :: rest) etype seen =
          matchPatterns rest etype seen := by
        simp only [matchPatterns]
        rw [if_neg hc]
      rw [hred]
      exact ih seen

theorem genericDatasetRun_inv (gen : List String) :
    ∀ seen : List String,
    (∀ x ∈ seen, x ∈ (genericDatasetRun gen seen).1) ∧
    (∀ e ∈ (genericDatasetRun gen seen).2,
      strToLower e.text ∈ (genericDatasetRun gen seen).1 ∧
      strToLower e.text ∉ seen) ∧
    (genericDatasetRun gen seen).2.Pairwise keyDiff := by
  induction gen with
  | nil =>
    intro seen
    exact ⟨fun x hx => hx, by intro e he; simp [genericDatasetRun] at he,
      List.Pairwise.nil⟩
  | cons g rest ih =>
    intro seen
    by_cases hc : strToLower (pyStrip g) ∉ seen ∧ 2 < (pyStrip g).length
    · have hred : genericDatasetRun (g :: rest) seen =
          ((genericDatasetRun rest (seen ++ [strToLower (pyStrip g)])).1,
            (⟨pyStrip g, "dataset", 13 / 20⟩ : Entity) ::
              (genericDatasetRun rest (seen ++ [strToLower (pyStrip g)])).2) := by
        simp only [genericDatasetRun]
        rw [if_pos hc]
      obtain ⟨hsub, hnew, hpw⟩ := ih (seen ++ [strToLower (pyStrip g)])
      rw [hred]
      refine ⟨?_, ?_, ?_⟩
      · intro x hx
        exact hsub x (List.mem_append.2 (Or.inl hx))
      · intro e he
        rcases List.mem_cons.1 he with he0 | he0
        · rw [he0]
          exact ⟨hsub _ (List.mem_append.2 (Or.inr (by simp))), hc.1⟩
        · obtain ⟨hin, hnotin⟩ := hnew e he0
          exact ⟨hin, fun hs => hnotin (List.mem_append.2 (Or.inl hs))⟩
      · refine List.Pairwise.cons ?_ hpw
        intro e he heq
        apply (hnew e he).2
        rw [← heq]
        exact List.mem_append.2 (Or.inr (by simp))
    · have hred : genericDatasetRun (g :: rest) seen = genericDatasetRun rest seen := by
        simp only [genericDatasetRun]
        rw [if_neg hc]
      rw [hred]
      exact ih seen

theorem researchProblemsRun_inv (probs : List String) :
    ∀ seen : List String,
    (∀ x ∈ seen, x ∈ (researchProblemsRun probs seen).1) ∧
    (∀ e ∈ (researchProblemsRun probs seen).2,
      strToLower e.text ∈ (researchProblemsRun probs seen).1 ∧
      strToLower e.text ∉ seen) ∧
    (researchProblemsRun probs seen).2.Pairwise keyDiff := by
  induction probs with
  | nil =>
    intro seen
    exact ⟨fun x hx => hx, by intro e he; simp [researchProblemsRun] at he,
      List.Pairwise.nil⟩
  | cons g rest ih =>
    intro seen
    by_cases hc : strToLower (pyStrip g) ∉ seen ∧ 10 < (pyStrip g).length ∧
        (pyStrip g).length < 200
    · have hred : researchProblemsRun (g :: rest) seen =
          ((researchProblemsRun rest (seen ++ [strToLower (pyStrip g)])).1,
            (⟨pyStrip g, "research_problem", 3 / 5⟩ : Entity) ::
              (researchProblemsRun rest (seen ++ [strToLower (pyStrip g)])).2) := by
        simp only [researchProblemsRun]
        rw [if_pos hc]
      obtain ⟨hsub, hnew, hpw⟩ := ih (seen ++ [strToLower (pyStrip g)])
      rw [hred]
      refine ⟨?_, ?_, ?_⟩
      · intro x hx
        exact hsub x (List.mem_append.2 (Or.inl hx))
      · intro e he
        rcases List.mem_cons.1 he with he0 | he0
        · rw [he0]
          exact ⟨hsub _ (List.mem_append.2 (Or.inr (by simp))), hc.1⟩
        · obtain ⟨hin, hnotin⟩ := hnew e he0
          exact ⟨hin, fun hs => hnotin (List.mem_append.2 (Or.inl hs))⟩
      · refine List.Pairwise.cons ?_ hpw
        intro e he heq
        apply (hnew e he).2
        rw [← heq]
        exact List.mem_append.2 (Or.inr (by simp))
    · have hred : researchProblemsRun (g :: rest) seen =
          researchProblemsRun rest seen := by
        simp only [researchProblemsRun]
        rw [if_neg hc]
      rw [hred]
      exact ih seen

theorem baselineParts_inv (parts : List String) :
    ∀ seen : List String,
    (∀ x ∈ seen, x ∈ (baselineParts parts seen).1) ∧
    (∀ e ∈ (baselineParts parts seen).2,
      strToLower e.text ∈ (baselineParts parts seen).1 ∧
      strToLower e.text ∉ seen) ∧
    (baselineParts parts seen).2.Pairwise keyDiff := by
  induction parts with
  | nil =>
    intro seen
    exact ⟨fun x hx => hx, by intro e he; simp [baselineParts] at he,
      List.Pairwise.nil⟩
  | cons p rest ih =>
    intro seen
    by_cases hc : strToLower (baselinePartClean p) ∉ seen ∧
        2 < (baselinePartClean p).length ∧ (baselinePartClean p).length < 80 ∧
        ¬ firstCharLower (baselinePartClean p)
    · have hred : baselineParts (p :: rest) seen =
          ((baselineParts rest (seen ++ [strToLower (baselinePartClean p)])).1,
            (⟨baselinePartClean p, "baseline", 3 / 5⟩ : Entity) ::
              (baselineParts rest (seen ++ [strToLower (baselinePartClean p)])).2) := by
        simp only [baselineParts]
        rw [if_pos hc]
      obtain ⟨hsub, hnew, hpw⟩ := ih (seen ++ [strToLower (baselinePartClean p)])
      rw [hred]
      refine ⟨?_, ?_, ?_⟩
      · intro x hx
        exact hsub x (List.mem_append.2 (Or.inl hx))
      · intro e he
        rcases List.mem_cons.1 he with he0 | he0
        · rw [he0]
          exact ⟨hsub _ (List.mem_append.2 (Or.inr (by simp))), hc.1⟩
        · obtain ⟨hin, hnotin⟩ := hnew e he0
          exact ⟨hin, fun hs => hnotin (List.mem_append.2 (Or.inl hs))⟩
      · refine List.Pairwise.cons ?_ hpw
        intro e he heq
        apply (hnew e he).2
        rw [← heq]
        exact List.mem_append.2 (Or.inr (by simp))
    · have hred : baselineParts (p :: rest) seen = baselineParts rest seen := by
        simp only [baselineParts]
        rw [if_neg hc]
      rw [hred]
      exact ih seen

theorem baselinesRun_inv (raws : List String) :
    ∀ seen : List String,
    (∀ x ∈ seen, x ∈ (baselinesRun raws seen).1) ∧
    (∀ e ∈ (baselinesRun raws seen).2,
      strToLower e.text ∈ (baselinesRun raws seen).1 ∧
      strToLower e.text ∉ seen) ∧
    (baselinesRun raws seen).2.Pairwise keyDiff := by
  induction raws with
  | nil =>
    intro seen
    exact ⟨fun x hx => hx, by intro e he; simp [baselinesRun] at he,
      List.Pairwise.nil⟩
  | cons raw rest ih =>
    intro seen
    have hred : baselinesRun (raw :: rest) seen =
        ((baselinesRun rest (baselineParts (baselineSplit (pyStrip raw)) seen).1).1,
          (baselineParts (baselineSplit (pyStrip raw)) seen).2 ++
            (baselinesRun rest (baselineParts (baselineSplit (pyStrip raw)) seen).1).2) := rfl
    obtain ⟨psub, pnew, ppw⟩ := baselineParts_inv (baselineSplit (pyStrip raw)) seen
    obtain ⟨rsub, rnew, rpw⟩ := ih (baselineParts (baselineSplit (pyStrip raw)) seen).1
    rw [hred]
    refine ⟨?_, ?_, ?_⟩
    · intro x hx
      exact rsub x (psub x hx)
    · intro e he
      rcases List.mem_append.1 he with h | h
      · obtain ⟨hin, hnotin⟩ := pnew e h
        exact ⟨rsub _ hin, hnotin⟩
      · obtain ⟨hin, hnotin⟩ := rnew e h
        exact ⟨hin, fun hs => hnotin (psub _ hs)⟩
    · refine (List.pairwise_append).2 ⟨ppw, rpw, ?_⟩
      intro a ha b hb heq
      exact (rnew b hb).2 (heq ▸ (pnew a ha).1)

theorem matchPatterns_text (etype : String) (found : List String) :
    ∀ seen : List String, ∀ e ∈ (matchPatterns found etype seen).2,
    ∃ m ∈ found, e.text = pyStrip m := by
  induction found with
  | nil =>
    intro seen e he
    simp [matchPatterns] at he
  | cons m rest ih =>
    intro seen e he
    by_cases hc : pyStrip (strToLower m) ∉ seen ∧ 1 < (pyStrip (strToLower m)).length
    · have hred : matchPatterns (m :: rest) etype seen =
          ((matchPatterns rest etype (seen ++ [pyStrip (strToLower m)])).1,
            (⟨pyStrip m, etype, 8 / 10⟩ : Entity) ::
              (matchPatterns rest etype (seen ++ [pyStrip (strToLower m)])).2) := by
        simp only [matchPatterns]
        rw [if_pos hc]
      rw [hred] at he
      rcases List.mem_cons.1 he with he0 | he0
      · exact ⟨m, List.mem_cons_self _ _, by rw [he0]⟩
      · obtain ⟨m2, hm2, ht⟩ := ih _ e he0
        exact ⟨m2, List.mem_cons_of_mem _ hm2, ht⟩
    · have hred : matchPatterns (m :: rest) etype seen =
          matchPatterns rest etype seen := by
        simp only [matchPatterns]
        rw [if_neg hc]
      rw [hred] at he
      obtain ⟨m2, hm2, ht⟩ := ih _ e he
      exact ⟨m2, List.mem_cons_of_mem _ hm2, ht⟩

/-- C8 counterexample: with section type results and the content whose
single baseline finditer match is recorded in basStream8, two baseline
entities are emitted whose texts differ only in trailing white space
(rstrip of the trailing dot exposes a space): their lower-cased stripped
keys coincide, so the claimed dedup key (lower-cased, stripped text) is
not what the shared seen set stores for the baseline path. -/
theorem C8_counterexample :
    extractEntities "results" c8content [] [] [] [] [] [] [] basStream8 =
      [⟨"ABC ", "baseline", 3 / 5⟩, ⟨"ABC", "baseline", 3 / 5⟩] ∧
    (⟨"ABC ", "baseline", 3 / 5⟩ : Entity) ≠ ⟨"ABC", "baseline", 3 / 5⟩ ∧
    strToLower (pyStrip "ABC ") = strToLower (pyStrip "ABC") := by
  refine ⟨by with_unfolding_all decide, by with_unfolding_all decide, by decide⟩

/-- C8 amended: within one extraction run no two emitted entities share
the same lower-cased text (the key actually stored in the shared seen
set; it equals the lower-cased stripped text everywhere except for
baseline texts, which may keep trailing white space after the trailing
dots are stripped), and the keyword-pattern path stores each matched span
stripped but with its case preserved. -/
theorem C8_dedup (sectionType content : String)
    (dsM metM methM toolM thM genM probM basM : List String) :
    (extractEntities sectionType content dsM metM methM toolM thM genM probM
      basM).Pairwise keyDiff ∧
    (∀ (found : List String) (etype : String) (seen : List String),
      ∀ e ∈ (matchPatterns found etype seen).2, ∃ m ∈ found, e.text = pyStrip m) := by
  refine ⟨?_, fun found etype seen => matchPatterns_text etype found seen⟩
  unfold extractEntities
  split
  · exact List.Pairwise.nil
  · dsimp only
    simp only [List.append_assoc]
    obtain ⟨sub1, new1, pw1⟩ := matchPatterns_inv "dataset" dsM []
    obtain ⟨sub2, new2, pw2⟩ := matchPatterns_inv "metric" metM
      (matchPatterns dsM "dataset" []).1
    obtain ⟨sub3, new3, pw3⟩ := matchPatterns_inv "method" methM
      (matchPatterns metM "metric" (matchPatterns dsM "dataset" []).1).1
    obtain ⟨sub4, new4, pw4⟩ := matchPatterns_inv "tool" toolM
      (matchPatterns methM "method"
        (matchPatterns metM "metric" (matchPatterns dsM "dataset" []).1).1).1
    obtain ⟨sub5, new5, pw5⟩ := matchPatterns_inv "theory" thM
      (matchPatterns toolM "tool"
        (matchPatterns methM "method"
          (matchPatterns metM "metric" (matchPatterns dsM "dataset" []).1).1).1).1
    obtain ⟨sub6, new6, pw6⟩ := genericDatasetRun_inv genM
      (matchPatterns thM "theory"
        (matchPatterns toolM "tool"
          (matchPatterns methM "method"
            (matchPatterns metM "metric"
              (matchPatterns dsM "dataset" []).1).1).1).1).1
    have h7 := condRun_inv
      (sectionType = "abstract" ∨ sectionType = "introduction" ∨
        sectionType = "other")
      (researchProblemsRun probM)
      (genericDatasetRun genM
        (matchPatterns thM "theory"
          (matchPatterns toolM "tool"
            (matchPatterns methM "method"
              (matchPatterns metM "metric"
                (matchPatterns dsM "dataset" []).1).1).1).1).1).1
      (researchProblemsRun_inv probM _)
    have h8 := condRun_inv
      (sectionType = "experiments" ∨ sectionType = "results" ∨
        sectionType = "discussion" ∨ sectionType = "other")
      (baselinesRun basM)
      ((if sectionType = "abstract" ∨ sectionType = "introduction" ∨
          sectionType = "other" then
        researchProblemsRun probM
          (genericDatasetRun genM
            (matchPatterns thM "theory"
              (matchPatterns toolM "tool"
                (matchPatterns methM "method"
                  (matchPatterns metM "metric"
                    (matchPatterns dsM "dataset" []).1).1).1).1).1).1
      else
        ((genericDatasetRun genM
            (matchPatterns thM "theory"
              (matchPatterns toolM "tool"
                (matchPatterns methM "method"
                  (matchPatterns metM "metric"
                    (matchPatterns dsM "dataset" []).1).1).1).1).1).1, [])).1)
      (baselinesRun_inv basM _)
    exact (afterInv_append sub1 new1 pw1
      (afterInv_append sub2 new2 pw2
        (afterInv_append sub3 new3 pw3
          (afterInv_append sub4 new4 pw4
            (afterInv_append sub5 new5 pw5
              (afterInv_append sub6 new6 pw6
                (afterInv_append h7.1 h7.2.1 h7.2.2
                  ⟨fun e he => (h8.2.1 e he).2, h8.2.2⟩))))))).2

/-- C8 witness: the amended theorem applied to the baseline example run
and, for the span-preservation part, to a one-match keyword stream. -/
theorem C8_witness :
    (extractEntities "results" c8content [] [] [] [] [] [] []
      basStream8).Pairwise keyDiff ∧
    (∃ m ∈ ["Adam"], (⟨"Adam", "method", 8 / 10⟩ : Entity).text = pyStrip m) :=
  ⟨(C8_dedup "results" c8content [] [] [] [] [] [] [] basStream8).1,
    (C8_dedup "x" "y" [] [] [] [] [] [] [] []).2 ["Adam"] "method" []
      ⟨"Adam", "method", 8 / 10⟩ (by with_unfolding_all decide)⟩

theorem pyStrip_length_le (s : String) : (pyStrip s).length ≤ s.length :=
  pyStripL_length_le s.data

/-- C9: extract_entities is a total function of its inputs, and on empty
or short content (under thirty characters) it returns the empty entity
list: the guard compares the stripped length, which is at most the
length, so short content always fails it. -/
theorem C9_short_content_empty (sectionType content : String)
    (dsM metM methM toolM thM genM probM basM : List String)
    (h : content = "" ∨ content.length < 30) :
    extractEntities sectionType content dsM metM methM toolM thM genM probM
      basM = [] := by
  have hg : content = "" ∨ (pyStrip content).length < 30 := by
    rcases h with h | h
    · exact Or.inl h
    · exact Or.inr (lt_of_le_of_lt (pyStrip_length_le content) h)
  unfold extractEntities
  rw [if_pos hg]

/-- C9 witness: the theorem applied to a four-character content. -/
theorem C9_witness :
    ("tiny" = "" ∨ ("tiny" : String).length < 30) ∧
    extractEntities "methods" "tiny" [] [] [] [] [] [] [] [] = [] :=
  ⟨Or.inr (by decide),
    C9_short_content_empty "methods" "tiny" [] [] [] [] [] [] [] []
      (Or.inr (by decide))⟩

theorem extractTablesGo_page (r : TableRec) :
    ∀ (n : ℕ) (pages : List PageData), r ∈ extractTablesGo n pages →
    ∃ i : ℕ, i < pages.length ∧ r.page = ((n + i : ℕ) : ℤ) + 1 := by
  intro n pages
  induction pages generalizing n with
  | nil =>
    intro h
    simp [extractTablesGo] at h
  | cons pd rest ih =>
    intro h
    rcases List.mem_append.1 h with h1 | h1
    · refine ⟨0, by simp, ?_⟩
      obtain ⟨tt, _, hmap⟩ := List.mem_filterMap.1 h1
      rcases ho : processTable tt.2 with _ | v
      · rw [ho] at hmap
        simp at hmap
      · rw [ho] at hmap
        simp only [Option.map_some'] at hmap
        injection hmap with hmap
        rw [← hmap]
        simp
    · obtain ⟨i, hi, hp⟩ := ih (n + 1) h1
      refine ⟨i + 1, by simpa using Nat.succ_lt_succ hi, ?_⟩
      rw [hp]
      push_cast
      ring

/-- C10: every table record of extract_tables_from_pdf carries a 1-based
page number (the record built while processing PDF page i has page
i + 1, so a first-page table gets 1), while the sections of
analyze_layout carry 0-based page indices (the first-page section of the
example document has page_start and page_end 0). -/
theorem C10_page_conventions :
    (∀ (pages : List PageData) (r : TableRec), r ∈ extractTablesFromPdf pages →
      ∃ i : ℕ, i < pages.length ∧ r.page = (i : ℤ) + 1 ∧ 1 ≤ r.page) ∧
    extractTablesFromPdf [pd10] = [⟨1, ["H1", "H2"], [["a", "b"]], ""⟩] ∧
    analyzeLayout exDoc3 = ([exSec3a, exSec3b], "en") ∧
    exSec3a.page_start = 0 ∧ exSec3a.page_end = 0 := by
  refine ⟨?_, by decide, by with_unfolding_all decide, by decide, by decide⟩
  intro pages r hr
  obtain ⟨i, hi, hp⟩ := extractTablesGo_page r 0 pages hr
  refine ⟨i, hi, ?_, ?_⟩
  · rw [hp]
    push_cast
    ring
  · rw [hp]
    omega

/-- C10 witness: the general statement applied to the concrete one-page
table input. -/
theorem C10_witness :
    ∃ i : ℕ, i < ([pd10] : List PageData).length ∧
      (⟨1, ["H1", "H2"], [["a", "b"]], ""⟩ : TableRec).page = (i : ℤ) + 1 ∧
      1 ≤ (⟨1, ["H1", "H2"], [["a", "b"]], ""⟩ : TableRec).page :=
  C10_page_conventions.1 [pd10] _ (by decide)

end PaperAssistant
